import Mathlib

/-!
Verification of the folder-to-transaction resolution and reconciliation engine
of the drive-to-sisu repository.

The embedding models the batch pipeline of `src/pages/api/run-upload.js`
(folder deduplication, marker reading, SISU lookup with retry, PDF
enumeration, upload with retry, rename-as-uploaded, outcome aggregation),
the undo rename of `src/pages/api/remove-suffix.js`, and the
all-statuses lookup variant of the single-upload endpoint.

Modelling conventions:
* JavaScript strings are Lean `String`s; the string primitives used by the
  code (`trim`, `toLowerCase`, `endsWith`, suffix-stripping regex replaces)
  are defined over `String.data` so that they are executable and provable.
* Folder paths are represented as their ordered list of ancestor names
  (root to leaf).  The JavaScript code joins these with the separator
  `" > "` and tests descendancy with `startsWith(path + " > ")`; for
  folder names that do not contain the separator this is exactly the
  proper-prefix test on the name lists, which is how it is modelled here.
* The Google Drive file hierarchy is a rose tree of folders carrying files;
  renaming a file by id is a pure state update on the trees.
* The two external services are oracles carried by the `World`: they are
  deterministic functions of their arguments (same request, same answer),
  and fallible operations return `Except String`.  The net effect of the
  retry wrappers is a single oracle in the batch model; the retry wrappers
  themselves (`findSISUClientWithRetry`, `uploadToSISUWithRetry`) are
  modelled separately over attempt-indexed response sequences.
* Writing to the audit spreadsheet is out of scope (external collaborator);
  the handler's summary and arrays are modelled, its sheet flush is not.
-/

namespace DriveToSisu

/-- Lower-cases every character of a string (JS `toLowerCase` on the
identifiers appearing here, which are ASCII). -/
def strLower (s : String) : String := ⟨s.data.map Char.toLower⟩

/-- Bool test that `suff` is a suffix of `s` (JS `String.prototype.endsWith`). -/
def strEndsWith (s suff : String) : Bool := suff.data.isSuffixOf s.data

/-- Drops the last `n` characters of a string. -/
def strDropRight (s : String) (n : Nat) : String := ⟨s.data.take (s.data.length - n)⟩

/-- Strips leading and trailing whitespace (JS `String.prototype.trim`). -/
def strTrim (s : String) : String :=
  ⟨((s.data.dropWhile Char.isWhitespace).reverse.dropWhile Char.isWhitespace).reverse⟩

/-- Eligibility filter of `findNewPDFs` (run-upload.js line 458): a PDF is
new when its name does not end with the literal `_UPLOADED.pdf`. -/
def isNewPdfName (n : String) : Bool := !(strEndsWith n "_UPLOADED.pdf")

/-- Name computation of `renameFileAsUploaded` (run-upload.js lines 674-686):
strip a trailing `.pdf` (case-insensitive regex `/\.pdf$/i`) and append
`_UPLOADED.pdf`. -/
def renameFileAsUploaded (currentName : String) : String :=
  let nameWithoutExt :=
    if strEndsWith (strLower currentName) ".pdf" then strDropRight currentName 4
    else currentName
  nameWithoutExt ++ "_UPLOADED.pdf"

/-- Name computation of `removeUploadedSuffix` (remove-suffix.js lines
108-120): replace a trailing `_UPLOADED.pdf` (case-insensitive regex
`/_UPLOADED\.pdf$/i`) by `.pdf`. -/
def removeUploadedSuffix (currentName : String) : String :=
  if strEndsWith (strLower currentName) "_uploaded.pdf" then
    strDropRight currentName 13 ++ ".pdf"
  else currentName

/-- A file as listed by the Drive store: stable id plus current name. -/
structure FileRef where
  id : Nat
  name : String
deriving DecidableEq, Repr

/-- A folder subtree of the Drive store: folder id, the PDF files directly
inside it, and its subfolders. -/
inductive FTree where
  | node (folderId : Nat) (files : List FileRef) (subs : List FTree)

mutual

/-- All files of a subtree, current folder first then subfolders in order. -/
def allFiles : FTree → List FileRef
  | .node _ fs subs => fs ++ allFilesAux subs

/-- All files of a forest, in order. -/
def allFilesAux : List FTree → List FileRef
  | [] => []
  | t :: ts => allFiles t ++ allFilesAux ts

end

mutual

/-- Mirrors `findNewPDFs` (run-upload.js lines 441-483): collect the PDFs of
the folder whose names pass `isNewPdfName`, then recurse into each
subfolder in order. -/
def findNewPDFs : FTree → List FileRef
  | .node _ fs subs => fs.filter (fun f => isNewPdfName f.name) ++ findNewPDFsAux subs

/-- The recursion of `findNewPDFs` over the subfolder list. -/
def findNewPDFsAux : List FTree → List FileRef
  | [] => []
  | t :: ts => findNewPDFs t ++ findNewPDFsAux ts

end

/-- Rename applied to a single file listing entry: the file with the given
id takes the new name, every other file is unchanged. -/
def renameFile (fid : Nat) (newName : String) (f : FileRef) : FileRef :=
  if f.id = fid then { f with name := newName } else f

mutual

/-- Renames every file carrying the given id (Drive `files.update` by id). -/
def renameTree (fid : Nat) (newName : String) : FTree → FTree
  | .node i fs subs => .node i (fs.map (renameFile fid newName)) (renameTreeAux fid newName subs)

/-- The recursion of `renameTree` over the subfolder list. -/
def renameTreeAux (fid : Nat) (newName : String) : List FTree → List FTree
  | [] => []
  | t :: ts => renameTree fid newName t :: renameTreeAux fid newName ts

end

/-- A discovered client folder (output of `findClientFolders`): the folder
holding a SISU_ID marker document, its display name, its full path as the
list of ancestor names (joined with " > " in the JS code), and the id of
the marker document. -/
structure ClientFolder where
  folderId : Nat
  folderName : String
  folderPath : List String
  sisuIdFileId : Nat
deriving DecidableEq, Repr

/-- Path depth used by the deduplicator (run-upload.js line 384:
`folder.folderPath.split(' > ').length`). -/
def folderDepth (f : ClientFolder) : Nat := f.folderPath.length

/-- Comparison used by the deduplicator's sort (run-upload.js line 388:
`(a, b) => a.depth - b.depth`, a stable sort ascending by depth). -/
def depthLE (a b : ClientFolder) : Prop := folderDepth a ≤ folderDepth b

instance : DecidableRel depthLE := fun a b =>
  inferInstanceAs (Decidable (folderDepth a ≤ folderDepth b))

instance : IsTotal ClientFolder depthLE := ⟨fun _ _ => Nat.le_total _ _⟩

instance : IsTrans ClientFolder depthLE := ⟨fun _ _ _ => Nat.le_trans⟩

/-- Descendancy test of the deduplicator (run-upload.js line 398:
`folder.folderPath.startsWith(processedPath + ' > ')`), expressed on the
name lists: the claimed path is a proper prefix of the candidate's path. -/
def isNestedUnder (anc desc : List String) : Bool :=
  anc.isPrefixOf desc && anc != desc

/-- Iteration of `deduplicateFoldersByPriority` (run-upload.js lines
390-409): walk the depth-sorted records, discard any record nested under an
already-claimed path, otherwise accept it and claim its path. -/
def dedupGo : List ClientFolder → List (List String) → List ClientFolder
  | [], _ => []
  | f :: rest, claimed =>
    if claimed.any (fun p => isNestedUnder p f.folderPath) then dedupGo rest claimed
    else f :: dedupGo rest (f.folderPath :: claimed)

/-- Mirrors `deduplicateFoldersByPriority` (run-upload.js lines 380-412):
stable sort ascending by path depth, then keep only records not nested
under an already-accepted record's path. -/
def deduplicateFoldersByPriority (allFolders : List ClientFolder) : List ClientFolder :=
  dedupGo (List.insertionSort depthLE allFolders) []

/-- A client record of the SISU find-client response body. -/
structure Client where
  client_id : Nat
  status_code : String
  status : String
  type_id : String
  address_1 : String
deriving DecidableEq, Repr

/-- A standardized transaction record (run-upload.js lines 584-589). -/
structure Txn where
  client_id : Nat
  role : String
  property_address : String
  status_code : String
deriving DecidableEq, Repr

/-- Result shape of `findSISUClientWithRetry` (run-upload.js lines 501-612). -/
structure LookupResult where
  found : Bool
  error : String
  transactions : List Txn
deriving DecidableEq, Repr

/-- Effective status code (run-upload.js line 566:
`client.status_code || client.status || ''`). -/
def effStatusCode (c : Client) : String :=
  if c.status_code ≠ "" then c.status_code else c.status

/-- The named inactive-status set (run-upload.js line 570). -/
def inactiveStatuses : List String := ["CLOSD", "LOST", "WITHD", "CANC", "EXPIR", "DEAD"]

/-- Active-transaction filter (run-upload.js lines 565-573): the effective
status code is not in the inactive set and the record is not archived
(`status !== 'A'`). -/
def isActiveClient (c : Client) : Bool :=
  !(inactiveStatuses.contains (effStatusCode c)) && c.status != "A"

/-- Standardized transaction built from a client record (run-upload.js
lines 584-589). -/
def toTxn (c : Client) : Txn :=
  { client_id := c.client_id
    role := if c.type_id = "b" then "buyer" else if c.type_id = "s" then "seller" else "unknown"
    property_address := if c.address_1 ≠ "" then c.address_1 else "N/A"
    status_code := c.status_code }

/-- Shape of the parsed JSON body of a 2xx find-client response, as
distinguished by run-upload.js lines 543-552. -/
inductive Payload where
  | clientsField (cs : List Client)
  | rawArray (cs : List Client)
  | singleClient (c : Client)
  | malformed
deriving Repr

/-- Extraction of `allClients` from the response body (run-upload.js lines
543-552): a `clients` array field, a bare array, a single client object, or
nothing recognizable. -/
def extractClients : Payload → List Client
  | .clientsField cs => cs
  | .rawArray cs => cs
  | .singleClient c => [c]
  | .malformed => []

/-- Processing of a successful find-client response in batch mode
(run-upload.js lines 554-594): empty list is a not-found, then the active
filter is applied, all-inactive is a not-found, otherwise every surviving
record is returned. -/
def handleOkResponse (allClients : List Client) : LookupResult :=
  if allClients.isEmpty then
    { found := false, error := "No clients found for email", transactions := [] }
  else
    let activeClients := allClients.filter isActiveClient
    if activeClients.isEmpty then
      { found := false
        error := "No active transactions found for email (all transactions are closed/inactive)"
        transactions := [] }
    else
      { found := true, error := "", transactions := activeClients.map toTxn }

/-- Processing of a successful find-client response in the single-upload
endpoint (src/unnamed/part_007 lines 405-423), the mode that intentionally
targets transactions at any stage: no status filter, every client record is
returned. -/
def handleOkResponseAllStatuses (allClients : List Client) : LookupResult :=
  if allClients.isEmpty then
    { found := false, error := "No clients found for email", transactions := [] }
  else
    { found := true, error := "", transactions := allClients.map toTxn }

/-- One attempt's observable outcome of the find-client HTTP call: a thrown
network/parse error, or an HTTP response with status, error body text and
parsed payload. -/
inductive SISUFetch where
  | netError (msg : String)
  | httpResponse (status : Nat) (errorText : String) (payload : Payload)

/-- One iteration of the retry loop of `findSISUClientWithRetry`
(run-upload.js lines 515-596): a 404 is an immediate terminal not-found; a
non-2xx response or a thrown error is a transient failure; a 2xx response
is processed by `handleOkResponse`. -/
def sisuAttempt (responses : Nat → SISUFetch) (attempt : Nat) : Except String LookupResult :=
  match responses attempt with
  | .netError m => .error m
  | .httpResponse status errorText payload =>
    if status = 404 then
      .ok { found := false, error := "Email not found in SISU", transactions := [] }
    else if status < 200 || 300 ≤ status then
      .error ("SISU API returned " ++ toString status ++ ": " ++ errorText)
    else
      .ok (handleOkResponse (extractClients payload))

/-- Observable trace of a retried registry call: the result, the number of
the attempt that terminated the loop, and the backoff sleeps performed (in
milliseconds, in order). -/
structure RetryTrace where
  result : LookupResult
  attempts : Nat
  sleepsMs : List Nat
deriving DecidableEq, Repr

/-- The retry loop of `findSISUClientWithRetry` from a given attempt
number: on a transient failure before the last attempt, sleep
`1000 * attempt` ms (run-upload.js line 609) and retry; on the last
attempt, convert the transient failure into the retry-exhausted not-found
result (run-upload.js lines 600-606). -/
def sisuFindFrom (responses : Nat → SISUFetch) (maxRetries attempt : Nat)
    (sleeps : List Nat) : RetryTrace :=
  if attempt < maxRetries then
    match sisuAttempt responses attempt with
    | .ok r => { result := r, attempts := attempt, sleepsMs := sleeps }
    | .error _ => sisuFindFrom responses maxRetries (attempt + 1) (sleeps ++ [1000 * attempt])
  else
    match sisuAttempt responses attempt with
    | .ok r => { result := r, attempts := attempt, sleepsMs := sleeps }
    | .error m =>
      { result :=
          { found := false
            error := "API error after " ++ toString maxRetries ++ " attempts: " ++ m
            transactions := [] }
        attempts := attempt, sleepsMs := sleeps }
termination_by maxRetries - attempt

/-- Mirrors `findSISUClientWithRetry` (run-upload.js lines 505-612) over an
attempt-indexed response sequence; the source's default `maxRetries` is 3. -/
def findSISUClientWithRetry (responses : Nat → SISUFetch) (maxRetries : Nat) : RetryTrace :=
  sisuFindFrom responses maxRetries 1 []

/-- One attempt's observable outcome of the document-submission HTTP call. -/
inductive UploadFetch where
  | netError (msg : String)
  | httpResponse (status : Nat) (errorText : String)

/-- One iteration of the retry loop of `uploadToSISUWithRetry`
(run-upload.js lines 639-656): a non-2xx response or a thrown error is a
failure, a 2xx response succeeds. -/
def uploadAttempt (responses : Nat → UploadFetch) (attempt : Nat) : Except String Unit :=
  match responses attempt with
  | .netError m => .error m
  | .httpResponse status errorText =>
    if status < 200 || 300 ≤ status then
      .error ("SISU API returned " ++ toString status ++ ": " ++ errorText)
    else .ok ()

deriving instance DecidableEq for Except

/-- Observable trace of a retried submission call. -/
structure UploadTrace where
  result : Except String Unit
  attempts : Nat
  sleepsMs : List Nat
deriving DecidableEq, Repr

/-- The retry loop of `uploadToSISUWithRetry` from a given attempt number:
sleep `1000 * attempt` ms between attempts (run-upload.js line 666);
exhausting the attempts throws the terminal upload failure (run-upload.js
line 662). -/
def uploadSendFrom (responses : Nat → UploadFetch) (maxRetries attempt : Nat)
    (sleeps : List Nat) : UploadTrace :=
  if attempt < maxRetries then
    match uploadAttempt responses attempt with
    | .ok _ => { result := .ok (), attempts := attempt, sleepsMs := sleeps }
    | .error _ => uploadSendFrom responses maxRetries (attempt + 1) (sleeps ++ [1000 * attempt])
  else
    match uploadAttempt responses attempt with
    | .ok _ => { result := .ok (), attempts := attempt, sleepsMs := sleeps }
    | .error m =>
      { result := .error ("Upload failed after " ++ toString maxRetries ++ " attempts: " ++ m)
        attempts := attempt, sleepsMs := sleeps }
termination_by maxRetries - attempt

/-- Mirrors `uploadToSISUWithRetry` (run-upload.js lines 617-669) over an
attempt-indexed response sequence; the source's default `maxRetries` is 3. -/
def uploadToSISUWithRetry (responses : Nat → UploadFetch) (maxRetries : Nat) : UploadTrace :=
  uploadSendFrom responses maxRetries 1 []

/-- Entry of `successfulUploads` (run-upload.js lines 158-165). -/
structure SuccessEntry where
  driveFileId : Nat
  driveFileName : String
  sisuClientId : Nat
  clientEmail : String
  folderPath : List String
  transactionRole : String
deriving DecidableEq, Repr

/-- Entry of `failures`; fields not set by a given push site are `none` or
empty. -/
structure FailEntry where
  folderId : Nat
  folderName : String
  folderPath : List String
  fileName : String
  fileId : Option Nat
  clientEmail : String
  sisuClientId : Option Nat
  error : String
  stage : String
deriving DecidableEq, Repr

/-- Entry of `skipped`. -/
structure SkipEntry where
  folderId : Nat
  folderName : String
  folderPath : List String
  email : String
  reason : String
  details : String
deriving DecidableEq, Repr

/-- Per-transaction detail stored in a multi-transaction flag
(run-upload.js lines 115-119). -/
structure FlagTxn where
  clientId : Nat
  role : String
  address : String
deriving DecidableEq, Repr

/-- Entry of `multiTransactionFlags` (run-upload.js lines 112-125). -/
structure FlagEntry where
  email : String
  transactionCount : Nat
  transactions : List FlagTxn
  folderPaths : List (List String)
  message : String
deriving DecidableEq, Repr

/-- The world a batch invocation runs against: the discovery output, the
marker-document texts, the deterministic net results of the external calls,
and the Drive file hierarchy per client folder.  `authOk` and `discoveryOk`
stand for the ability to authenticate with and reach the store at all. -/
structure World where
  clientFolders : List ClientFolder
  markerText : Nat → Option String
  lookup : String → Except String LookupResult
  uploadResult : Nat → String → Except String Unit
  downloadResult : Nat → Except String Unit
  renameResult : Nat → Except String Unit
  enumError : Nat → Option String
  tree : Nat → FTree
  authOk : Except String Unit
  discoveryOk : Except String Unit

/-- Mirrors `readClientEmail` (run-upload.js lines 417-436): export the
marker document as text and trim it; a store read failure yields `null`
(here `none`), never an exception. -/
def readClientEmail (w : World) (fileId : Nat) : Option String :=
  (w.markerText fileId).map strTrim

/-- Accumulator of a batch run: the Drive state plus the four outcome
arrays of the handler, and (as instrumentation) the list of submission
calls issued, as (clientId, filename) in order. -/
structure Acc where
  st : Nat → FTree
  successfulUploads : List SuccessEntry
  failures : List FailEntry
  skipped : List SkipEntry
  multiTransactionFlags : List FlagEntry
  calls : List (Nat × String)

/-- Applies a rename to every folder tree of the state. -/
def renameState (st : Nat → FTree) (fid : Nat) (newName : String) : Nat → FTree :=
  fun i => renameTree fid newName (st i)

/-- Failure entry pushed by the per-file catch (run-upload.js lines
170-180, stage `upload_to_sisu`). -/
def pdfFailEntry (folder : ClientFolder) (email : String) (t : Txn) (pdf : FileRef)
    (e : String) : FailEntry :=
  { folderId := folder.folderId, folderName := folder.folderName
    folderPath := folder.folderPath, fileName := pdf.name, fileId := some pdf.id
    clientEmail := email, sisuClientId := some t.client_id, error := e
    stage := "upload_to_sisu" }

/-- Per-file step of the pipeline (run-upload.js lines 147-183): download,
submit, and only after a submission success rename the source file; any
failure is caught at the file boundary and recorded. -/
def processPdf (w : World) (folder : ClientFolder) (email : String) (t : Txn)
    (a : Acc) (pdf : FileRef) : Acc :=
  match w.downloadResult pdf.id with
  | .error e => { a with failures := a.failures ++ [pdfFailEntry folder email t pdf e] }
  | .ok _ =>
    let a1 := { a with calls := a.calls ++ [(t.client_id, pdf.name)] }
    match w.uploadResult t.client_id pdf.name with
    | .error e => { a1 with failures := a1.failures ++ [pdfFailEntry folder email t pdf e] }
    | .ok _ =>
      match w.renameResult pdf.id with
      | .error e => { a1 with failures := a1.failures ++ [pdfFailEntry folder email t pdf e] }
      | .ok _ =>
        { a1 with
          st := renameState a1.st pdf.id (renameFileAsUploaded pdf.name)
          successfulUploads := a1.successfulUploads ++
            [{ driveFileId := pdf.id, driveFileName := pdf.name
               sisuClientId := t.client_id, clientEmail := email
               folderPath := folder.folderPath
               transactionRole := if t.role = "" then "unknown" else t.role }] }

/-- Failure entry pushed by the per-transaction catch (run-upload.js lines
184-192, stage `process_folder`). -/
def folderFailEntry (email : String) (folder : ClientFolder) (m : String) : FailEntry :=
  { folderId := folder.folderId, folderName := folder.folderName
    folderPath := folder.folderPath, fileName := "", fileId := none
    clientEmail := email, sisuClientId := none, error := m
    stage := "process_folder" }

/-- Per-transaction step (run-upload.js lines 132-193): enumerate the new
PDFs of the folder at the current Drive state, then process each; an
enumeration failure is caught at this boundary (stage `process_folder`). -/
def processTxn (w : World) (folder : ClientFolder) (email : String)
    (a : Acc) (t : Txn) : Acc :=
  match w.enumError folder.folderId with
  | some m => { a with failures := a.failures ++ [folderFailEntry email folder m] }
  | none =>
    (findNewPDFs (a.st folder.folderId)).foldl (processPdf w folder email t) a

/-- Per-folder step (run-upload.js lines 130-195): submit the folder's
files to every resolved transaction in order. -/
def processFolder (w : World) (email : String) (txns : List Txn)
    (a : Acc) (folder : ClientFolder) : Acc :=
  txns.foldl (processTxn w folder email) a

/-- Multi-transaction flag pushed when an email resolves to more than one
transaction (run-upload.js lines 111-127). -/
def flagFor (email : String) (txns : List Txn) (folders : List ClientFolder) : FlagEntry :=
  { email := email
    transactionCount := txns.length
    transactions := txns.map (fun t =>
      { clientId := t.client_id
        role := if t.role = "" then "unknown" else t.role
        address := if t.property_address = "" then "N/A" else t.property_address })
    folderPaths := folders.map (fun f => f.folderPath)
    message := "MANUAL REVIEW NEEDED: Multiple transactions found for this email" }

/-- Failure entry pushed by the per-email catch (run-upload.js lines
196-207, stage `process_email`). -/
def emailFailEntry (email : String) (folder : ClientFolder) (e : String) : FailEntry :=
  { folderId := folder.folderId, folderName := folder.folderName
    folderPath := folder.folderPath, fileName := "", fileId := none
    clientEmail := email, sisuClientId := none, error := e
    stage := "process_email" }

/-- Per-email step (run-upload.js lines 87-208): look the email up in SISU;
a lookup exception is converted into one failure per folder (stage
`process_email`); a not-found is converted into one skip per folder; a
multi-transaction result is flagged, and processing proceeds over every
folder of the email. -/
def processEmailGroup (w : World) (a : Acc) (g : String × List ClientFolder) : Acc :=
  match w.lookup g.1 with
  | .error e =>
    { a with failures := a.failures ++ g.2.map (fun folder => emailFailEntry g.1 folder e) }
  | .ok lr =>
    if lr.found = false then
      { a with skipped := a.skipped ++ g.2.map (fun folder =>
          { folderId := folder.folderId, folderName := folder.folderName
            folderPath := folder.folderPath, email := g.1
            reason := "Email not associated with a SISU transaction"
            details := lr.error }) }
    else
      let a1 :=
        if 1 < lr.transactions.length then
          { a with multiTransactionFlags := a.multiTransactionFlags ++ [flagFor g.1 lr.transactions g.2] }
        else a
      g.2.foldl (processFolder w g.1 lr.transactions) a1

/-- Skip entry for an empty (or unreadable) marker document (run-upload.js
lines 58-67). -/
def emptyMarkerSkip (folder : ClientFolder) : SkipEntry :=
  { folderId := folder.folderId, folderName := folder.folderName
    folderPath := folder.folderPath, email := ""
    reason := "SISU_ID file is empty", details := "" }

/-- Insertion-ordered map update used for `emailToFoldersMap` (a JS `Map`
preserves insertion order; run-upload.js lines 70-73). -/
def insertGroup (m : List (String × List ClientFolder)) (k : String) (f : ClientFolder) :
    List (String × List ClientFolder) :=
  match m with
  | [] => [(k, [f])]
  | (k', fs) :: rest =>
    if k' = k then (k', fs ++ [f]) :: rest else (k', fs) :: insertGroup rest k f

/-- One iteration of step 4 of the handler (run-upload.js lines 52-84):
read the folder's marker; an unreadable or empty marker becomes a skip
entry, otherwise the folder joins the group of its exact trimmed marker
text. -/
def buildGroupsStep (w : World)
    (acc : List (String × List ClientFolder) × List SkipEntry) (folder : ClientFolder) :
    List (String × List ClientFolder) × List SkipEntry :=
  match readClientEmail w folder.sisuIdFileId with
  | none => (acc.1, acc.2 ++ [emptyMarkerSkip folder])
  | some s =>
    if s = "" then (acc.1, acc.2 ++ [emptyMarkerSkip folder])
    else (insertGroup acc.1 s folder, acc.2)

/-- Step 4 of the handler (run-upload.js lines 50-84): read each marker,
skip the empty or unreadable ones, and group the rest by the exact trimmed
marker text. -/
def buildGroups (w : World) (folders : List ClientFolder) :
    List (String × List ClientFolder) × List SkipEntry :=
  folders.foldl (buildGroupsStep w) ([], [])

/-- The batch run (run-upload.js handler steps 3-5): deduplicate the
discovered folders, group them by marker email, and process each group. -/
def runBatch (w : World) : Acc :=
  let clientFolders := deduplicateFoldersByPriority w.clientFolders
  let gs := buildGroups w clientFolders
  gs.1.foldl (processEmailGroup w)
    { st := w.tree, successfulUploads := [], failures := [], skipped := gs.2,
      multiTransactionFlags := [], calls := [] }

/-- The world after one batch run: only the Drive state has changed. -/
def afterRunOnce (w : World) : World := { w with tree := (runBatch w).st }

/-- Summary block of the HTTP-200 response (run-upload.js lines 228-233). -/
structure Summary where
  totalSuccessful : Nat
  totalFailed : Nat
  totalSkipped : Nat
  multiTransactionCount : Nat
deriving DecidableEq, Repr

/-- Response of the handler: a structured 200 with summary and arrays, or a
hard 500 failure. -/
inductive HandlerOutcome where
  | ok (status : Nat) (summary : Summary) (result : Acc)
  | fatal (status : Nat) (details : String)

/-- Summary computed from a run's accumulator. -/
def mkSummary (a : Acc) : Summary :=
  { totalSuccessful := a.successfulUploads.length, totalFailed := a.failures.length
    totalSkipped := a.skipped.length, multiTransactionCount := a.multiTransactionFlags.length }

/-- Mirrors the batch handler (run-upload.js lines 16-259) on a POST
request: only a failure to authenticate with or reach the store escapes to
the 500 path; otherwise the run's outcome is returned as a 200 with the
structured summary. -/
def handler (w : World) : HandlerOutcome :=
  match w.authOk with
  | .error e => .fatal 500 e
  | .ok _ =>
    match w.discoveryOk with
    | .error e => .fatal 500 e
    | .ok _ => .ok 200 (mkSummary (runBatch w)) (runBatch w)

/-- The email groups a batch run iterates over (dedup then group). -/
def batchGroups (w : World) : List (String × List ClientFolder) :=
  (buildGroups w (deduplicateFoldersByPriority w.clientFolders)).1

/-- An active buyer-side transaction used by the concrete scenarios. -/
def exTxn1 : Txn :=
  { client_id := 11, role := "buyer", property_address := "1 Main St", status_code := "UCON" }

/-- A second active transaction for the same identifier (seller side). -/
def exTxn2 : Txn :=
  { client_id := 22, role := "seller", property_address := "2 Oak St", status_code := "ACTI" }

/-- A client folder holding one marker document. -/
def exFolderA : ClientFolder :=
  { folderId := 1, folderName := "ClientA", folderPath := ["Root", "ClientA"], sisuIdFileId := 100 }

/-- The multi-transaction scenario: one authoritative folder whose marker
email resolves to two active transactions, with a single eligible PDF and
every external call succeeding. -/
def exWorldMulti : World :=
  { clientFolders := [exFolderA]
    markerText := fun i => if i = 100 then some "a@x.com" else none
    lookup := fun e =>
      if e = "a@x.com" then .ok { found := true, error := "", transactions := [exTxn1, exTxn2] }
      else .ok { found := false, error := "Email not found in SISU", transactions := [] }
    uploadResult := fun _ _ => .ok ()
    downloadResult := fun _ => .ok ()
    renameResult := fun _ => .ok ()
    enumError := fun _ => none
    tree := fun i => if i = 1 then .node 1 [{ id := 5, name := "doc.pdf" }] [] else .node 0 [] []
    authOk := .ok ()
    discoveryOk := .ok () }

/-- The exact-duplicate-path scenario: two marker documents in the same
folder produce two folder records with identical paths; the marker email
resolves to one transaction and the folder holds one eligible PDF. -/
def exWorldDup : World :=
  { clientFolders :=
      [{ folderId := 1, folderName := "ClientA", folderPath := ["Root", "ClientA"], sisuIdFileId := 100 },
       { folderId := 1, folderName := "ClientA", folderPath := ["Root", "ClientA"], sisuIdFileId := 101 }]
    markerText := fun i => if i = 100 || i = 101 then some "a@x.com" else none
    lookup := fun e =>
      if e = "a@x.com" then .ok { found := true, error := "", transactions := [exTxn1] }
      else .ok { found := false, error := "Email not found in SISU", transactions := [] }
    uploadResult := fun _ _ => .ok ()
    downloadResult := fun _ => .ok ()
    renameResult := fun _ => .ok ()
    enumError := fun _ => none
    tree := fun i => if i = 1 then .node 1 [{ id := 5, name := "doc.pdf" }] [] else .node 0 [] []
    authOk := .ok ()
    discoveryOk := .ok () }

/-- Two sibling folders whose marker contents differ only in letter case
(one also has surrounding whitespace). -/
def exWorldCase : World :=
  { clientFolders :=
      [{ folderId := 1, folderName := "ClientA", folderPath := ["Root", "ClientA"], sisuIdFileId := 100 },
       { folderId := 2, folderName := "ClientB", folderPath := ["Root", "ClientB"], sisuIdFileId := 101 }]
    markerText := fun i =>
      if i = 100 then some " Bob@X.com " else if i = 101 then some "bob@x.com" else none
    lookup := fun _ => .ok { found := false, error := "Email not found in SISU", transactions := [] }
    uploadResult := fun _ _ => .ok ()
    downloadResult := fun _ => .ok ()
    renameResult := fun _ => .ok ()
    enumError := fun _ => none
    tree := fun _ => .node 0 [] []
    authOk := .ok ()
    discoveryOk := .ok () }

/-- First sibling folder of the trim scenario. -/
def exFolderT1 : ClientFolder :=
  { folderId := 1, folderName := "ClientA", folderPath := ["Root", "ClientA"], sisuIdFileId := 100 }

/-- Second sibling folder of the trim scenario. -/
def exFolderT2 : ClientFolder :=
  { folderId := 2, folderName := "ClientB", folderPath := ["Root", "ClientB"], sisuIdFileId := 101 }

/-- Two sibling folders whose marker contents are equal after trimming. -/
def exWorldTrim : World :=
  { clientFolders := [exFolderT1, exFolderT2]
    markerText := fun i =>
      if i = 100 then some " a@x.com" else if i = 101 then some "a@x.com  " else none
    lookup := fun _ => .ok { found := false, error := "Email not found in SISU", transactions := [] }
    uploadResult := fun _ _ => .ok ()
    downloadResult := fun _ => .ok ()
    renameResult := fun _ => .ok ()
    enumError := fun _ => none
    tree := fun _ => .node 0 [] []
    authOk := .ok ()
    discoveryOk := .ok () }

/-- A run in which the single submission call fails terminally: the batch
must still complete with a 200 and one failure entry. -/
def exWorldFail : World :=
  { clientFolders := [exFolderA]
    markerText := fun i => if i = 100 then some "a@x.com" else none
    lookup := fun e =>
      if e = "a@x.com" then .ok { found := true, error := "", transactions := [exTxn1] }
      else .ok { found := false, error := "Email not found in SISU", transactions := [] }
    uploadResult := fun _ _ => .error "Upload failed after 3 attempts: SISU API returned 500: boom"
    downloadResult := fun _ => .ok ()
    renameResult := fun _ => .ok ()
    enumError := fun _ => none
    tree := fun i => if i = 1 then .node 1 [{ id := 5, name := "doc.pdf" }] [] else .node 0 [] []
    authOk := .ok ()
    discoveryOk := .ok () }

/-- Folder record at path A/B. -/
def exRecAB : ClientFolder :=
  { folderId := 10, folderName := "B", folderPath := ["A", "B"], sisuIdFileId := 200 }

/-- Folder record at path A/B/C, nested under A/B. -/
def exRecABC : ClientFolder :=
  { folderId := 11, folderName := "C", folderPath := ["A", "B", "C"], sisuIdFileId := 201 }

/-- Folder record at the unrelated path D. -/
def exRecD : ClientFolder :=
  { folderId := 12, folderName := "D", folderPath := ["D"], sisuIdFileId := 202 }

/-- Attempt-indexed find-client responses that always return a 404. -/
def exResponses404 : Nat → SISUFetch := fun _ => .httpResponse 404 "" .malformed

/-- Attempt-indexed submission responses failing twice, then succeeding. -/
def exUpFailTwice : Nat → UploadFetch :=
  fun a => if a ≤ 2 then .netError "socket hang up" else .httpResponse 200 ""

/-- An active (under-contract) client record. -/
def exClientActive : Client :=
  { client_id := 11, status_code := "UCON", status := "", type_id := "b", address_1 := "1 Main St" }

/-- A closed client record. -/
def exClientClosed : Client :=
  { client_id := 12, status_code := "CLOSD", status := "", type_id := "s", address_1 := "2 Oak St" }

/-- Attempt-indexed find-client responses failing twice, then returning the
single active client. -/
def exFindFailTwice : Nat → SISUFetch :=
  fun a =>
    if a ≤ 2 then .netError "socket hang up"
    else .httpResponse 200 "" (.clientsField [exClientActive])

/-- The per-pair success condition of the pipeline: download, submission
and rename all succeed for this (transaction, file) pair. -/
def successPath (w : World) (cid : Nat) (f : FileRef) : Prop :=
  w.downloadResult f.id = .ok () ∧ w.uploadResult cid f.name = .ok () ∧
  w.renameResult f.id = .ok ()

/-- How a single file listing entry may change during a run: the id is
stable and the name is either unchanged or carries the transferred
suffix. -/
def FileEvol (f g : FileRef) : Prop :=
  g.id = f.id ∧ (g.name = f.name ∨ strEndsWith g.name "_UPLOADED.pdf" = true)

/-- How the Drive state may change during a run: every folder tree keeps
its shape and every file evolves by `FileEvol`. -/
def StEvol (a b : Nat → FTree) : Prop :=
  ∀ i, List.Forall₂ FileEvol (allFiles (a i)) (allFiles (b i))

/-- Every file carrying the given id is marked with the transferred suffix
everywhere in the Drive state. -/
def idSuffixed (st : Nat → FTree) (fid : Nat) : Prop :=
  ∀ i, ∀ g ∈ allFiles (st i), g.id = fid → strEndsWith g.name "_UPLOADED.pdf" = true

/-- How the accumulator may change during a run: the Drive state evolves
and the outcome arrays only grow at the end. -/
def AccEvol (a b : Acc) : Prop :=
  StEvol a.st b.st ∧ a.successfulUploads <+: b.successfulUploads ∧
  a.failures <+: b.failures ∧ a.skipped <+: b.skipped ∧
  a.multiTransactionFlags <+: b.multiTransactionFlags ∧ a.calls <+: b.calls

/-- After-run invariant: for every email group the batch iterates over,
every transaction resolved for it and every file still enumerated beneath
one of its folders, the pair can no longer fully succeed. -/
def NoWin (w : World) (st : Nat → FTree) : Prop :=
  ∀ g ∈ batchGroups w, ∀ lr : LookupResult, w.lookup g.1 = Except.ok lr →
    lr.found = true → ∀ fo ∈ g.2, w.enumError fo.folderId = none →
    ∀ t ∈ lr.transactions, ∀ f ∈ findNewPDFs (st fo.folderId),
      ¬ successPath w t.client_id f

/-- Accumulator invariant: every recorded success concerns a file whose id
is marked with the transferred suffix in the current Drive state. -/
def SuccInv (a : Acc) : Prop :=
  ∀ e ∈ a.successfulUploads, idSuffixed a.st e.driveFileId

/-! ## String lemmas -/

theorem strLower_append (s t : String) : strLower (s ++ t) = strLower s ++ strLower t := by
  apply String.ext
  simp [strLower, String.data_append]

theorem strEndsWith_append_self (s t : String) : strEndsWith (s ++ t) t = true := by
  simp only [strEndsWith, String.data_append, List.isSuffixOf_iff_suffix]
  exact List.suffix_append _ _

theorem strDropRight_append (s t : String) : strDropRight (s ++ t) t.data.length = s := by
  apply String.ext
  simp only [strDropRight, String.data_append, List.length_append, Nat.add_sub_cancel]
  exact List.take_left s.data t.data

theorem strLower_pdf_lit : strLower ".pdf" = ".pdf" := by decide

theorem strLower_uploaded_lit : strLower "_UPLOADED.pdf" = "_uploaded.pdf" := by decide

theorem renameFileAsUploaded_append_pdf (base : String) :
    renameFileAsUploaded (base ++ ".pdf") = base ++ "_UPLOADED.pdf" := by
  have h1 : strEndsWith (strLower (base ++ ".pdf")) ".pdf" = true := by
    rw [strLower_append, strLower_pdf_lit]
    exact strEndsWith_append_self _ _
  have h2 : strDropRight (base ++ ".pdf") 4 = base := by
    have h3 := strDropRight_append base ".pdf"
    have h4 : (".pdf" : String).data.length = 4 := by decide
    rw [h4] at h3
    exact h3
  simp [renameFileAsUploaded, h1, h2]

theorem removeUploadedSuffix_append (base : String) :
    removeUploadedSuffix (base ++ "_UPLOADED.pdf") = base ++ ".pdf" := by
  have h1 : strEndsWith (strLower (base ++ "_UPLOADED.pdf")) "_uploaded.pdf" = true := by
    rw [strLower_append, strLower_uploaded_lit]
    exact strEndsWith_append_self _ _
  have h2 : strDropRight (base ++ "_UPLOADED.pdf") 13 = base := by
    have h3 := strDropRight_append base "_UPLOADED.pdf"
    have h4 : ("_UPLOADED.pdf" : String).data.length = 13 := by decide
    rw [h4] at h3
    exact h3
  simp [removeUploadedSuffix, h1, h2]

theorem renameFileAsUploaded_endsWith (n : String) :
    strEndsWith (renameFileAsUploaded n) "_UPLOADED.pdf" = true := by
  simp only [renameFileAsUploaded]
  split <;> exact strEndsWith_append_self _ _

/-! ## Claim C7 -/

/-- C7: a successful transfer renames `name.pdf` to `name_UPLOADED.pdf`, the
undo operation strips exactly this suffix so that undoing the marked name
yields back the original name, and the restored name passes the
eligibility filter again. -/
theorem upload_rename_roundtrip (base : String) (h : isNewPdfName (base ++ ".pdf") = true) :
    renameFileAsUploaded (base ++ ".pdf") = base ++ "_UPLOADED.pdf" ∧
    removeUploadedSuffix (renameFileAsUploaded (base ++ ".pdf")) = base ++ ".pdf" ∧
    isNewPdfName (removeUploadedSuffix (renameFileAsUploaded (base ++ ".pdf"))) = true := by
  have h1 := renameFileAsUploaded_append_pdf base
  refine ⟨h1, ?_, ?_⟩
  · rw [h1]
    exact removeUploadedSuffix_append base
  · rw [h1, removeUploadedSuffix_append]
    exact h

/-- Witness for C7 at the concrete file name `doc.pdf`. -/
theorem upload_rename_roundtrip_witness :
    isNewPdfName ("doc" ++ ".pdf") = true ∧
    renameFileAsUploaded ("doc" ++ ".pdf") = "doc" ++ "_UPLOADED.pdf" :=
  ⟨by decide, (upload_rename_roundtrip "doc" (by decide)).1⟩

/-! ## Tree lemmas -/

theorem ftree_induction (P : FTree → Prop)
    (h : ∀ i fs subs, (∀ t ∈ subs, P t) → P (.node i fs subs)) : ∀ t, P t
  | .node i fs subs => h i fs subs (fun t ht => ftree_induction P h t)
decreasing_by
  simp_wf
  have := List.sizeOf_lt_of_mem ht
  omega

theorem allFilesAux_eq (ts : List FTree) : allFilesAux ts = (ts.map allFiles).flatten := by
  induction ts with
  | nil => rfl
  | cons t ts ih => rw [allFilesAux, ih, List.map_cons, List.flatten_cons]

theorem allFiles_node (i : Nat) (fs : List FileRef) (subs : List FTree) :
    allFiles (.node i fs subs) = fs ++ (subs.map allFiles).flatten := by
  rw [allFiles, allFilesAux_eq]

theorem findNewPDFsAux_eq (ts : List FTree) :
    findNewPDFsAux ts = (ts.map findNewPDFs).flatten := by
  induction ts with
  | nil => rfl
  | cons t ts ih => rw [findNewPDFsAux, ih, List.map_cons, List.flatten_cons]

theorem findNewPDFs_node (i : Nat) (fs : List FileRef) (subs : List FTree) :
    findNewPDFs (.node i fs subs) =
      fs.filter (fun f => isNewPdfName f.name) ++ (subs.map findNewPDFs).flatten := by
  rw [findNewPDFs, findNewPDFsAux_eq]

theorem renameTreeAux_eq (fid : Nat) (nm : String) (ts : List FTree) :
    renameTreeAux fid nm ts = ts.map (renameTree fid nm) := by
  induction ts with
  | nil => rfl
  | cons t ts ih => rw [renameTreeAux, ih, List.map_cons]

theorem renameTree_node (fid : Nat) (nm : String) (i : Nat) (fs : List FileRef)
    (subs : List FTree) :
    renameTree fid nm (.node i fs subs) =
      .node i (fs.map (renameFile fid nm)) (subs.map (renameTree fid nm)) := by
  rw [renameTree, renameTreeAux_eq]

theorem findNewPDFs_eq_filter (t : FTree) :
    findNewPDFs t = (allFiles t).filter (fun f => isNewPdfName f.name) := by
  induction t using ftree_induction with
  | h i fs subs ih =>
    rw [findNewPDFs_node, allFiles_node, List.filter_append, List.filter_flatten]
    congr 1
    rw [List.map_map]
    congr 1
    exact List.map_congr_left ih

theorem allFiles_renameTree (fid : Nat) (nm : String) (t : FTree) :
    allFiles (renameTree fid nm t) = (allFiles t).map (renameFile fid nm) := by
  induction t using ftree_induction with
  | h i fs subs ih =>
    rw [renameTree_node, allFiles_node, allFiles_node, List.map_append, List.map_flatten]
    congr 1
    rw [List.map_map, List.map_map]
    congr 1
    exact List.map_congr_left ih

theorem mem_findNewPDFs_iff (f : FileRef) (t : FTree) :
    f ∈ findNewPDFs t ↔ f ∈ allFiles t ∧ isNewPdfName f.name = true := by
  rw [findNewPDFs_eq_filter, List.mem_filter]

/-- C3 supporting fact: the enumeration step never returns a file whose
name carries the transferred suffix. -/
theorem findNewPDFs_excludes_suffix (t : FTree) (f : FileRef) (h : f ∈ findNewPDFs t) :
    strEndsWith f.name "_UPLOADED.pdf" = false := by
  have h2 := ((mem_findNewPDFs_iff f t).1 h).2
  simp only [isNewPdfName, Bool.not_eq_true'] at h2
  exact h2

/-! ## Deduplicator lemmas -/

theorem length_lt_of_nested {p q : List String} (h : isNestedUnder p q = true) :
    p.length < q.length := by
  simp only [isNestedUnder, Bool.and_eq_true, List.isPrefixOf_iff_prefix, bne_iff_ne, ne_eq] at h
  exact Nat.lt_of_le_of_ne h.1.length_le (fun hl => h.2 (h.1.eq_of_length hl))

theorem isNestedUnder_trans {p q r : List String} (h1 : isNestedUnder p q = true)
    (h2 : isNestedUnder q r = true) : isNestedUnder p r = true := by
  have hpq := length_lt_of_nested h1
  have hqr := length_lt_of_nested h2
  simp only [isNestedUnder, Bool.and_eq_true, List.isPrefixOf_iff_prefix, bne_iff_ne, ne_eq]
    at h1 h2 ⊢
  refine ⟨h1.1.trans h2.1, fun he => ?_⟩
  rw [he] at hpq
  omega

theorem isNestedUnder_irrefl (p : List String) : isNestedUnder p p = false := by
  simp [isNestedUnder]

theorem dedupGo_not_mem_of_claimed (r : ClientFolder) :
    ∀ (pending : List ClientFolder) (claimed : List (List String)),
      (∃ p ∈ claimed, isNestedUnder p r.folderPath = true) → r ∉ dedupGo pending claimed := by
  intro pending
  induction pending with
  | nil => intro claimed _; simp [dedupGo]
  | cons f rest ih =>
    intro claimed hex
    rw [dedupGo]
    split
    · exact ih claimed hex
    · next hnot =>
      intro hmem
      rcases List.mem_cons.1 hmem with he | hm
      · obtain ⟨p, hp, hnest⟩ := hex
        subst he
        exact hnot (List.any_eq_true.2 ⟨p, hp, hnest⟩)
      · obtain ⟨p, hp, hnest⟩ := hex
        exact ih _ ⟨p, List.mem_cons_of_mem _ hp, hnest⟩ hm

theorem dedupGo_excludes_nested (r1 r2 : ClientFolder)
    (hnest : isNestedUnder r1.folderPath r2.folderPath = true) :
    ∀ (pending : List ClientFolder) (claimed : List (List String)),
      pending.Sorted depthLE → r1 ∈ pending → r2 ∉ dedupGo pending claimed := by
  intro pending
  induction pending with
  | nil => intro claimed _ h1; simp at h1
  | cons f rest ih =>
    intro claimed hsort hr1 hmem2
    have hhead := (List.sorted_cons.1 hsort).1
    have hsort' := (List.sorted_cons.1 hsort).2
    rw [dedupGo] at hmem2
    rcases List.mem_cons.1 hr1 with he1 | hm1
    · subst he1
      split at hmem2
      · next hany =>
        obtain ⟨p, hp, hnp⟩ := List.any_eq_true.1 hany
        exact dedupGo_not_mem_of_claimed r2 rest claimed
          ⟨p, hp, isNestedUnder_trans hnp hnest⟩ hmem2
      · rcases List.mem_cons.1 hmem2 with he2 | hm2
        · subst he2
          rw [isNestedUnder_irrefl] at hnest
          exact Bool.false_ne_true hnest
        · exact dedupGo_not_mem_of_claimed r2 rest _
            ⟨r1.folderPath, List.mem_cons_self _ _, hnest⟩ hm2
    · have hd1 : folderDepth f ≤ folderDepth r1 := hhead r1 hm1
      have hd2 : r1.folderPath.length < r2.folderPath.length := length_lt_of_nested hnest
      split at hmem2
      · exact ih claimed hsort' hm1 hmem2
      · rcases List.mem_cons.1 hmem2 with he2 | hm2
        · subst he2
          simp only [folderDepth] at hd1
          omega
        · exact ih _ hsort' hm1 hm2

theorem dedupGo_count (r : ClientFolder) :
    ∀ (pending : List ClientFolder) (claimed : List (List String)),
      (∀ p ∈ claimed, isNestedUnder p r.folderPath = false) →
      (∀ s ∈ pending, isNestedUnder s.folderPath r.folderPath = false) →
      (dedupGo pending claimed).count r = pending.count r := by
  intro pending
  induction pending with
  | nil => intro claimed _ _; rfl
  | cons f rest ih =>
    intro claimed hcl hpend
    rw [dedupGo]
    split
    · next hany =>
      have hfr : ¬ r = f := by
        intro he
        obtain ⟨p, hp, hnp⟩ := List.any_eq_true.1 hany
        rw [← he, hcl p hp] at hnp
        exact Bool.false_ne_true hnp
      have hbf : (f == r) = false := beq_eq_false_iff_ne.2 (fun h => hfr h.symm)
      rw [List.count_cons, hbf]
      simp only [Bool.false_eq_true, if_false, Nat.add_zero]
      exact ih claimed hcl (fun s hs => hpend s (List.mem_cons_of_mem _ hs))
    · have h1 := ih (f.folderPath :: claimed)
        (by
          intro p hp
          rcases List.mem_cons.1 hp with he | hm
          · rw [he]
            exact hpend f (List.mem_cons_self f rest)
          · exact hcl p hm)
        (fun s hs => hpend s (List.mem_cons_of_mem _ hs))
      rw [List.count_cons, List.count_cons, h1]

/-- Helper shared by the deduplicator claims: a record dominated by no
record of the input survives with its full multiplicity. -/
theorem dedup_count_of_undominated (l : List ClientFolder) (r : ClientFolder)
    (hnone : ∀ s ∈ l, isNestedUnder s.folderPath r.folderPath = false) :
    (deduplicateFoldersByPriority l).count r = l.count r := by
  rw [deduplicateFoldersByPriority,
    dedupGo_count r (List.insertionSort depthLE l) [] (by simp)
      (fun s hs => hnone s ((List.mem_insertionSort _).1 hs))]
  exact (List.perm_insertionSort depthLE l).count_eq r

theorem filter_orderedInsert_depth_eq (k : Nat) (a : ClientFolder) (l : List ClientFolder)
    (h : folderDepth a = k) :
    (List.orderedInsert depthLE a l).filter (fun f => folderDepth f == k) =
      a :: l.filter (fun f => folderDepth f == k) := by
  induction l with
  | nil => simp [List.orderedInsert, List.filter_cons, h]
  | cons b l ih =>
    rw [List.orderedInsert]
    by_cases hab : depthLE a b
    · rw [if_pos hab]
      simp [List.filter_cons, h]
    · rw [if_neg hab]
      have hbk : (folderDepth b == k) = false := by
        simp only [beq_eq_false_iff_ne, ne_eq]
        intro he
        exact hab (by unfold depthLE; omega)
      simp only [List.filter_cons, hbk, Bool.false_eq_true, if_false]
      exact ih

theorem filter_orderedInsert_depth_ne (k : Nat) (a : ClientFolder) (l : List ClientFolder)
    (h : ¬ folderDepth a = k) :
    (List.orderedInsert depthLE a l).filter (fun f => folderDepth f == k) =
      l.filter (fun f => folderDepth f == k) := by
  have hak : (folderDepth a == k) = false := by
    simp only [beq_eq_false_iff_ne, ne_eq]
    exact h
  induction l with
  | nil => simp [List.orderedInsert, List.filter_cons, hak]
  | cons b l ih =>
    rw [List.orderedInsert]
    by_cases hab : depthLE a b
    · rw [if_pos hab]
      simp only [List.filter_cons, hak, Bool.false_eq_true, if_false]
    · rw [if_neg hab]
      simp only [List.filter_cons]
      rw [ih]

theorem insertionSort_filter_depth (k : Nat) (l : List ClientFolder) :
    (List.insertionSort depthLE l).filter (fun f => folderDepth f == k) =
      l.filter (fun f => folderDepth f == k) := by
  induction l with
  | nil => rfl
  | cons a l ih =>
    rw [List.insertionSort]
    by_cases h : folderDepth a = k
    · rw [filter_orderedInsert_depth_eq k a _ h, ih]
      simp [List.filter_cons, h]
    · rw [filter_orderedInsert_depth_ne k a _ h, ih]
      have hak : (folderDepth a == k) = false := by
        simp only [beq_eq_false_iff_ne, ne_eq]
        exact h
      simp [List.filter_cons, hak]

/-! ## Claim C2 -/

/-- C2: the deduplicator sorts ascending by depth deterministically and
stably (a permutation, sorted, preserving the original relative order
inside every depth class), discards exactly the records nested under an
accepted path, so that a record whose path properly extends another
record's path never survives, while a record dominated by no other record
always survives. -/
theorem deduplicateFolders_spec (l : List ClientFolder) :
    ((List.insertionSort depthLE l).Perm l ∧
      (List.insertionSort depthLE l).Sorted depthLE ∧
      (∀ k, (List.insertionSort depthLE l).filter (fun f => folderDepth f == k) =
        l.filter (fun f => folderDepth f == k))) ∧
    (∀ r1 ∈ l, ∀ r2 ∈ l, isNestedUnder r1.folderPath r2.folderPath = true →
      r2 ∉ deduplicateFoldersByPriority l) ∧
    (∀ r ∈ l, (∀ s ∈ l, isNestedUnder s.folderPath r.folderPath = false) →
      r ∈ deduplicateFoldersByPriority l) := by
  refine ⟨⟨List.perm_insertionSort _ _, List.sorted_insertionSort _ _,
    fun k => insertionSort_filter_depth k l⟩, ?_, ?_⟩
  · intro r1 h1 r2 _ hnest
    exact dedupGo_excludes_nested r1 r2 hnest _ [] (List.sorted_insertionSort _ _)
      ((List.mem_insertionSort _).2 h1)
  · intro r hr hnone
    have hc := dedup_count_of_undominated l r hnone
    have hpos : 0 < (deduplicateFoldersByPriority l).count r := by
      rw [hc]
      exact List.count_pos_iff.2 hr
    exact List.count_pos_iff.1 hpos

/-- Witness for C2: with records at A/B, A/B/C and D, the nested A/B/C
record is dropped and the unrelated D record is kept. -/
theorem deduplicateFolders_spec_witness :
    exRecABC ∉ deduplicateFoldersByPriority [exRecAB, exRecABC, exRecD] ∧
    exRecD ∈ deduplicateFoldersByPriority [exRecAB, exRecABC, exRecD] :=
  ⟨(deduplicateFolders_spec [exRecAB, exRecABC, exRecD]).2.1 exRecAB (by decide)
      exRecABC (by decide) (by decide),
    (deduplicateFolders_spec [exRecAB, exRecABC, exRecD]).2.2 exRecD (by decide) (by decide)⟩

/-! ## Claim C10 -/

/-- C10: records with exactly equal paths are never discarded because of
each other — any record dominated by no proper-prefix path survives with
its full multiplicity — and in the concrete equal-duplicate scenario both
records are processed while the transferred-suffix rename keeps the file
to a single submission. -/
theorem dedup_keeps_equal_paths :
    (∀ (l : List ClientFolder) (r : ClientFolder),
      (∀ s ∈ l, isNestedUnder s.folderPath r.folderPath = false) →
      (deduplicateFoldersByPriority l).count r = l.count r) ∧
    (deduplicateFoldersByPriority exWorldDup.clientFolders).length = 2 ∧
    (runBatch exWorldDup).successfulUploads.length = 1 ∧
    (runBatch exWorldDup).calls.length = 1 := by
  refine ⟨fun l r hnone => dedup_count_of_undominated l r hnone, by decide, by decide, by decide⟩

/-- Witness for C10: two records with the same path are both kept. -/
theorem dedup_keeps_equal_paths_witness :
    (deduplicateFoldersByPriority [exRecAB, exRecAB]).count exRecAB =
      [exRecAB, exRecAB].count exRecAB ∧
    [exRecAB, exRecAB].count exRecAB = 2 :=
  ⟨dedup_keeps_equal_paths.1 [exRecAB, exRecAB] exRecAB (by decide), by decide⟩

/-! ## Claim C4 -/

/-- C4: a definitive 404 from the registry terminates the resolver after
exactly one attempt, with no backoff sleep, carrying the dedicated
not-found reason string, which differs from every retry-exhausted reason
string. -/
theorem notFound_terminal_no_retry (responses : Nat → SISUFetch) (errorText : String)
    (p : Payload) (h : responses 1 = .httpResponse 404 errorText p) :
    findSISUClientWithRetry responses 3 =
      { result := { found := false, error := "Email not found in SISU", transactions := [] },
        attempts := 1, sleepsMs := [] } ∧
    (∀ m, "API error after 3 attempts: " ++ m ≠ "Email not found in SISU") := by
  constructor
  · rw [findSISUClientWithRetry, sisuFindFrom]
    simp [sisuAttempt, h]
  · intro m hm
    have hl := congrArg String.length hm
    rw [String.length_append] at hl
    have h1 : ("API error after 3 attempts: " : String).length = 28 := by decide
    have h2 : ("Email not found in SISU" : String).length = 23 := by decide
    omega

/-- Witness for C4 at a constant-404 response sequence. -/
theorem notFound_terminal_no_retry_witness :
    findSISUClientWithRetry exResponses404 3 =
      { result := { found := false, error := "Email not found in SISU", transactions := [] },
        attempts := 1, sleepsMs := [] } :=
  (notFound_terminal_no_retry exResponses404 "" .malformed rfl).1

/-! ## Claim C5 -/

/-- C5: both retry wrappers attempt at most 3 times with linear backoff of
`attempt × 1000` ms between attempts; two transient failures followed by a
success yield a success with sleeps 1s and 2s and no terminal failure, and
a terminal failure arises only when all 3 attempts failed. -/
theorem retry_backoff_spec :
    (∀ (responses : Nat → UploadFetch) (e1 e2 : String),
      uploadAttempt responses 1 = .error e1 → uploadAttempt responses 2 = .error e2 →
      uploadAttempt responses 3 = .ok () →
      uploadToSISUWithRetry responses 3 =
        { result := .ok (), attempts := 3, sleepsMs := [1000 * 1, 1000 * 2] }) ∧
    (∀ (responses : Nat → SISUFetch) (r : LookupResult) (e1 e2 : String),
      sisuAttempt responses 1 = .error e1 → sisuAttempt responses 2 = .error e2 →
      sisuAttempt responses 3 = .ok r →
      findSISUClientWithRetry responses 3 =
        { result := r, attempts := 3, sleepsMs := [1000 * 1, 1000 * 2] }) ∧
    (∀ responses : Nat → UploadFetch, (uploadToSISUWithRetry responses 3).attempts ≤ 3) ∧
    (∀ responses : Nat → SISUFetch, (findSISUClientWithRetry responses 3).attempts ≤ 3) ∧
    (∀ responses : Nat → UploadFetch,
      (uploadToSISUWithRetry responses 3).sleepsMs =
        (List.range ((uploadToSISUWithRetry responses 3).attempts - 1)).map
          (fun i => 1000 * (i + 1))) ∧
    (∀ (responses : Nat → UploadFetch) (m : String),
      (uploadToSISUWithRetry responses 3).result = .error m →
      ∃ e1 e2 e3, uploadAttempt responses 1 = .error e1 ∧
        uploadAttempt responses 2 = .error e2 ∧ uploadAttempt responses 3 = .error e3 ∧
        m = "Upload failed after 3 attempts: " ++ e3) := by
  refine ⟨?_, ?_, ?_, ?_, ?_, ?_⟩
  · intro responses e1 e2 h1 h2 h3
    rw [uploadToSISUWithRetry, uploadSendFrom]
    simp only [h1]
    rw [uploadSendFrom]
    simp only [h2]
    rw [uploadSendFrom]
    simp [h3]
  · intro responses r e1 e2 h1 h2 h3
    rw [findSISUClientWithRetry, sisuFindFrom]
    simp only [h1]
    rw [sisuFindFrom]
    simp only [h2]
    rw [sisuFindFrom]
    simp [h3]
  · intro responses
    rw [uploadToSISUWithRetry, uploadSendFrom]
    cases h1 : uploadAttempt responses 1 with
    | ok u => simp [h1]
    | error m1 =>
      simp only [h1]
      rw [uploadSendFrom]
      cases h2 : uploadAttempt responses 2 with
      | ok u => simp [h2]
      | error m2 =>
        simp only [h2]
        rw [uploadSendFrom]
        cases h3 : uploadAttempt responses 3 with
        | ok u => simp [h3]
        | error m3 => simp [h3]
  · intro responses
    rw [findSISUClientWithRetry, sisuFindFrom]
    cases h1 : sisuAttempt responses 1 with
    | ok r => simp [h1]
    | error m1 =>
      simp only [h1]
      rw [sisuFindFrom]
      cases h2 : sisuAttempt responses 2 with
      | ok r => simp [h2]
      | error m2 =>
        simp only [h2]
        rw [sisuFindFrom]
        cases h3 : sisuAttempt responses 3 with
        | ok r => simp [h3]
        | error m3 => simp [h3]
  · intro responses
    rw [uploadToSISUWithRetry, uploadSendFrom]
    cases h1 : uploadAttempt responses 1 with
    | ok u => simp [h1]
    | error m1 =>
      simp only [h1]
      rw [uploadSendFrom]
      cases h2 : uploadAttempt responses 2 with
      | ok u => simp [h2]; decide
      | error m2 =>
        simp only [h2]
        rw [uploadSendFrom]
        cases h3 : uploadAttempt responses 3 with
        | ok u => simp [h3]; decide
        | error m3 => simp [h3]; decide
  · intro responses m hres
    rw [uploadToSISUWithRetry, uploadSendFrom] at hres
    cases h1 : uploadAttempt responses 1 with
    | ok u => rw [h1] at hres; simp at hres
    | error m1 =>
      rw [h1] at hres
      simp only [Nat.lt_irrefl] at hres
      rw [uploadSendFrom] at hres
      cases h2 : uploadAttempt responses 2 with
      | ok u => rw [h2] at hres; simp at hres
      | error m2 =>
        rw [h2] at hres
        rw [uploadSendFrom] at hres
        cases h3 : uploadAttempt responses 3 with
        | ok u => rw [h3] at hres; simp at hres
        | error m3 =>
          rw [h3] at hres
          simp at hres
          refine ⟨m1, m2, m3, rfl, rfl, rfl, ?_⟩
          rw [← hres]
          rw [show ("Upload failed after " ++ toString 3 ++ " attempts: " : String) =
            "Upload failed after 3 attempts: " from by decide]

/-- Witness for C5: two network failures then a 200 yield a success on the
third attempt with sleeps of 1s and 2s. -/
theorem retry_backoff_spec_witness :
    uploadToSISUWithRetry exUpFailTwice 3 =
      { result := .ok (), attempts := 3, sleepsMs := [1000 * 1, 1000 * 2] } :=
  retry_backoff_spec.1 exUpFailTwice "socket hang up" "socket hang up"
    (by decide) (by decide) (by decide)

/-! ## Claim C6 -/

theorem handleOkResponse_found (cs : List Client) (he : cs.isEmpty = false)
    (ha : (cs.filter isActiveClient).isEmpty = false) :
    handleOkResponse cs =
      { found := true, error := ""
        transactions := (cs.filter isActiveClient).map toTxn } := by
  rw [handleOkResponse]
  simp [he, ha]

theorem handleOkResponse_found_iff (cs : List Client) :
    (handleOkResponse cs).found = true ↔
      (cs.isEmpty = false ∧ (cs.filter isActiveClient).isEmpty = false) := by
  rw [handleOkResponse]
  rcases h1 : cs.isEmpty <;> rcases h2 : (cs.filter isActiveClient).isEmpty <;> simp [h1, h2]

/-- C6: in batch mode a found result only carries transactions built from
clients passing the active filter (statuses outside CLOSD, LOST, WITHD,
CANC, EXPIR, DEAD and not archived); an identifier whose records are all
inactive yields a not-found rather than an empty found result; and the
all-statuses mode returns every record regardless of status. -/
theorem status_filtering_spec :
    (∀ cs : List Client, (handleOkResponse cs).found = true →
      (handleOkResponse cs).transactions ≠ [] ∧
      ∀ tx ∈ (handleOkResponse cs).transactions,
        ∃ c ∈ cs, isActiveClient c = true ∧ tx = toTxn c) ∧
    (∀ cs : List Client, cs ≠ [] → (∀ c ∈ cs, isActiveClient c = false) →
      handleOkResponse cs =
        { found := false
          error := "No active transactions found for email (all transactions are closed/inactive)"
          transactions := [] }) ∧
    (∀ c : Client, isActiveClient c = true ↔
      (effStatusCode c ∉ inactiveStatuses ∧ c.status ≠ "A")) ∧
    (∀ cs : List Client, cs ≠ [] →
      (handleOkResponseAllStatuses cs).found = true ∧
      (handleOkResponseAllStatuses cs).transactions = cs.map toTxn) := by
  refine ⟨?_, ?_, ?_, ?_⟩
  · intro cs hfound
    have hif := (handleOkResponse_found_iff cs).1 hfound
    rw [handleOkResponse_found cs hif.1 hif.2]
    constructor
    · simp only [ne_eq, List.map_eq_nil_iff]
      intro hnil
      rw [hnil] at hif
      simp at hif
    · intro tx htx
      simp only [List.mem_map] at htx
      obtain ⟨c, hc, htc⟩ := htx
      exact ⟨c, (List.mem_filter.1 hc).1, (List.mem_filter.1 hc).2, htc.symm⟩
  · intro cs hne hall
    rw [handleOkResponse]
    have hempty : cs.isEmpty = false := by
      cases cs with
      | nil => exact absurd rfl hne
      | cons a l => rfl
    rw [hempty]
    have hfil : cs.filter isActiveClient = [] := by
      rw [List.filter_eq_nil_iff]
      intro a ha
      simp [hall a ha]
    simp [hfil]
  · intro c
    simp [isActiveClient, List.elem_iff, bne_iff_ne]
  · intro cs hne
    rw [handleOkResponseAllStatuses]
    have hempty : cs.isEmpty = false := by
      cases cs with
      | nil => exact absurd rfl hne
      | cons a l => rfl
    rw [hempty]
    exact ⟨rfl, rfl⟩

/-- Witness for C6: a closed record is filtered out in batch mode but kept
by the all-statuses mode. -/
theorem status_filtering_spec_witness :
    handleOkResponse [exClientClosed] =
      { found := false
        error := "No active transactions found for email (all transactions are closed/inactive)"
        transactions := [] } ∧
    (handleOkResponseAllStatuses [exClientClosed]).transactions = [toTxn exClientClosed] :=
  ⟨status_filtering_spec.2.1 [exClientClosed] (by decide) (by decide),
    (status_filtering_spec.2.2.2 [exClientClosed] (by decide)).2⟩

/-! ## Claim C1 -/

/-- C1 at the failing input: one folder, an identifier resolving to two
active transactions, one eligible file, every external call succeeding.
The multi-transaction flag is emitted with `transactionCount = 2`, but only
the first transaction receives a submission attempt: after the first
success the file is renamed with the transferred suffix, so the per-
transaction re-enumeration finds nothing for the second transaction. -/
theorem multi_txn_second_transaction_starved :
    ((runBatch exWorldMulti).multiTransactionFlags.map (fun fl => fl.transactionCount) = [2]) ∧
    ((runBatch exWorldMulti).calls = [(11, "doc.pdf")]) ∧
    ((runBatch exWorldMulti).calls.filter (fun c => c.1 == 22) = []) ∧
    ((runBatch exWorldMulti).successfulUploads.length = 1) ∧
    ((runBatch exWorldMulti).failures = []) := by
  refine ⟨by decide, by decide, by decide, by decide, by decide⟩

/-! ## Claim C8 -/

/-- C8 counterexample: the batch identifier-reading step trims but does not
lower-case — the marker content ` Bob@X.com ` resolves to `Bob@X.com`, not
to its lower-cased form, and two markers differing only in letter case
produce two distinct email groups in the batch pipeline. -/
theorem marker_email_not_lowercased :
    readClientEmail exWorldCase 100 = some "Bob@X.com" ∧
    strLower "Bob@X.com" = "bob@x.com" ∧
    readClientEmail exWorldCase 100 ≠ some (strLower "Bob@X.com") ∧
    (batchGroups exWorldCase).map (fun g => g.1) = ["Bob@X.com", "bob@x.com"] := by
  refine ⟨by decide, by decide, by decide, by decide⟩

/-! ## Email grouping lemmas -/

theorem insertGroup_keys (m : List (String × List ClientFolder)) (k : String) (f : ClientFolder) :
    (insertGroup m k f).map Prod.fst =
      if k ∈ m.map Prod.fst then m.map Prod.fst else m.map Prod.fst ++ [k] := by
  induction m with
  | nil => simp [insertGroup]
  | cons g rest ih =>
    obtain ⟨k', fs⟩ := g
    rw [insertGroup]
    by_cases hk : k' = k
    · rw [if_pos hk]
      simp [hk]
    · rw [if_neg hk]
      simp only [List.map_cons, ih]
      by_cases hmem : k ∈ rest.map Prod.fst
      · rw [if_pos hmem, if_pos (List.mem_cons_of_mem _ hmem)]
      · have hnotin : k ∉ (k', fs).1 :: rest.map Prod.fst := by
          intro hin
          rcases List.mem_cons.1 hin with he | hm
          · exact hk he.symm
          · exact hmem hm
        rw [if_neg hmem, if_neg hnotin, List.cons_append]

theorem insertGroup_nodupKeys (m : List (String × List ClientFolder)) (k : String)
    (f : ClientFolder) (h : (m.map Prod.fst).Nodup) :
    ((insertGroup m k f).map Prod.fst).Nodup := by
  rw [insertGroup_keys]
  split
  · exact h
  · next hk => simp [List.nodup_append, h, hk]

theorem insertGroup_self (m : List (String × List ClientFolder)) (k : String)
    (f : ClientFolder) : ∃ g ∈ insertGroup m k f, g.1 = k ∧ f ∈ g.2 := by
  induction m with
  | nil => exact ⟨(k, [f]), by simp [insertGroup]⟩
  | cons g rest ih =>
    obtain ⟨k', fs⟩ := g
    rw [insertGroup]
    by_cases hk : k' = k
    · rw [if_pos hk]
      exact ⟨(k', fs ++ [f]), List.mem_cons_self _ _, hk, by simp⟩
    · rw [if_neg hk]
      obtain ⟨g0, hg0, hk0, hf0⟩ := ih
      exact ⟨g0, List.mem_cons_of_mem _ hg0, hk0, hf0⟩

theorem insertGroup_preserve (m : List (String × List ClientFolder)) (k : String)
    (f : ClientFolder) (g' : String × List ClientFolder) (x : ClientFolder)
    (hg : g' ∈ m) (hx : x ∈ g'.2) :
    ∃ g ∈ insertGroup m k f, g.1 = g'.1 ∧ x ∈ g.2 := by
  induction m with
  | nil => simp at hg
  | cons g0 rest ih =>
    obtain ⟨k', fs⟩ := g0
    rw [insertGroup]
    by_cases hk : k' = k
    · rw [if_pos hk]
      rcases List.mem_cons.1 hg with he | hm
      · refine ⟨(k', fs ++ [f]), List.mem_cons_self _ _, ?_, ?_⟩
        · rw [he]
        · rw [he] at hx
          exact List.mem_append_left _ hx
      · exact ⟨g', List.mem_cons_of_mem _ hm, rfl, hx⟩
    · rw [if_neg hk]
      rcases List.mem_cons.1 hg with he | hm
      · exact ⟨g', he ▸ List.mem_cons_self _ _, rfl, hx⟩
      · obtain ⟨g1, hg1, hk1, hx1⟩ := ih hm
        exact ⟨g1, List.mem_cons_of_mem _ hg1, hk1, hx1⟩

theorem buildFold_preserve (w : World) :
    ∀ (folders : List ClientFolder) (acc : List (String × List ClientFolder) × List SkipEntry)
      (g' : String × List ClientFolder) (x : ClientFolder), g' ∈ acc.1 → x ∈ g'.2 →
      ∃ g ∈ (folders.foldl (buildGroupsStep w) acc).1, g.1 = g'.1 ∧ x ∈ g.2 := by
  intro folders
  induction folders with
  | nil => exact fun acc g' x hg hx => ⟨g', hg, rfl, hx⟩
  | cons fo rest ih =>
    intro acc g' x hg hx
    rw [List.foldl_cons]
    cases h : readClientEmail w fo.sisuIdFileId with
    | none =>
      exact ih _ g' x (by simp [buildGroupsStep, h]; exact hg) hx
    | some s =>
      by_cases hs : s = ""
      · exact ih _ g' x (by simp [buildGroupsStep, h, hs]; exact hg) hx
      · obtain ⟨g1, hg1, hk1, hx1⟩ := insertGroup_preserve acc.1 s fo g' x hg hx
        obtain ⟨g2, hg2, hk2, hx2⟩ :=
          ih (buildGroupsStep w acc fo) g1 x (by simp [buildGroupsStep, h, hs]; exact hg1) hx1
        exact ⟨g2, hg2, hk2.trans hk1, hx2⟩

theorem buildFold_mem (w : World) (f : ClientFolder) (s : String)
    (hs : readClientEmail w f.sisuIdFileId = some s) (hne : s ≠ "") :
    ∀ (folders : List ClientFolder) (acc : List (String × List ClientFolder) × List SkipEntry),
      f ∈ folders →
      ∃ g ∈ (folders.foldl (buildGroupsStep w) acc).1, g.1 = s ∧ f ∈ g.2 := by
  intro folders
  induction folders with
  | nil => intro acc hf; simp at hf
  | cons fo rest ih =>
    intro acc hf
    rw [List.foldl_cons]
    rcases List.mem_cons.1 hf with he | hm
    · obtain ⟨g0, hg0, hk0, hf0⟩ := insertGroup_self acc.1 s f
      have hstep : (buildGroupsStep w acc fo).1 = insertGroup acc.1 s f := by
        rw [← he]
        simp [buildGroupsStep, hs, hne]
      obtain ⟨g1, hg1, hk1, hf1⟩ :=
        buildFold_preserve w rest (buildGroupsStep w acc fo) g0 f (by rw [hstep]; exact hg0) hf0
      exact ⟨g1, hg1, hk1.trans hk0, hf1⟩
    · exact ih _ hm

theorem buildFold_nodupKeys (w : World) :
    ∀ (folders : List ClientFolder) (acc : List (String × List ClientFolder) × List SkipEntry),
      (acc.1.map Prod.fst).Nodup →
      ((folders.foldl (buildGroupsStep w) acc).1.map Prod.fst).Nodup := by
  intro folders
  induction folders with
  | nil => exact fun acc h => h
  | cons fo rest ih =>
    intro acc h
    rw [List.foldl_cons]
    refine ih _ ?_
    cases hr : readClientEmail w fo.sisuIdFileId with
    | none => simpa [buildGroupsStep, hr] using h
    | some s =>
      by_cases hs : s = ""
      · simpa [buildGroupsStep, hr, hs] using h
      · simp only [buildGroupsStep, hr, if_neg hs]
        exact insertGroup_nodupKeys acc.1 s fo h

theorem assoc_key_unique (m : List (String × List ClientFolder))
    (h : (m.map Prod.fst).Nodup) (g g' : String × List ClientFolder)
    (hg : g ∈ m) (hg' : g' ∈ m) (hk : g.1 = g'.1) : g = g' := by
  induction m with
  | nil => simp at hg
  | cons a rest ih =>
    simp only [List.map_cons, List.nodup_cons] at h
    rcases List.mem_cons.1 hg with he | hm <;> rcases List.mem_cons.1 hg' with he' | hm'
    · rw [he, he']
    · exfalso
      apply h.1
      rw [← he, hk]
      exact List.mem_map_of_mem Prod.fst hm'
    · exfalso
      apply h.1
      rw [← he', ← hk]
      exact List.mem_map_of_mem Prod.fst hm
    · exact ih h.2 hm hm'

/-- C8 amended: in batch mode the resolved identifier is the marker content
trimmed of surrounding whitespace with letter case preserved, so two marker
documents whose contents are equal after trimming resolve to the same
identifier and are grouped together for a single registry lookup (case
differences, by contrast, yield distinct identifiers, as the
counterexample shows). -/
theorem resolved_identifier_trim_spec (w : World) (folders : List ClientFolder)
    (f1 f2 : ClientFolder) (c1 c2 : String)
    (hf1 : f1 ∈ folders) (hf2 : f2 ∈ folders)
    (hm1 : w.markerText f1.sisuIdFileId = some c1)
    (hm2 : w.markerText f2.sisuIdFileId = some c2)
    (heq : strTrim c1 = strTrim c2) (hne : strTrim c1 ≠ "") :
    readClientEmail w f1.sisuIdFileId = some (strTrim c1) ∧
    readClientEmail w f2.sisuIdFileId = readClientEmail w f1.sisuIdFileId ∧
    ∃ g ∈ (buildGroups w folders).1, g.1 = strTrim c1 ∧ f1 ∈ g.2 ∧ f2 ∈ g.2 := by
  have hr1 : readClientEmail w f1.sisuIdFileId = some (strTrim c1) := by
    simp [readClientEmail, hm1]
  have hr2 : readClientEmail w f2.sisuIdFileId = some (strTrim c1) := by
    simp [readClientEmail, hm2, heq]
  refine ⟨hr1, by rw [hr1, hr2], ?_⟩
  obtain ⟨g1, hg1, hk1, hmem1⟩ := buildFold_mem w f1 (strTrim c1) hr1 hne folders ([], []) hf1
  obtain ⟨g2, hg2, hk2, hmem2⟩ := buildFold_mem w f2 (strTrim c1) hr2 hne folders ([], []) hf2
  have hgg := assoc_key_unique _ (buildFold_nodupKeys w folders ([], []) (by simp))
    g1 g2 hg1 hg2 (hk1.trans hk2.symm)
  exact ⟨g1, hg1, hk1, hmem1, hgg ▸ hmem2⟩

/-- Witness for the amended C8: the markers ` a@x.com` and `a@x.com  ` land
in one shared group. -/
theorem resolved_identifier_trim_spec_witness :
    ∃ g ∈ (buildGroups exWorldTrim exWorldTrim.clientFolders).1,
      g.1 = strTrim " a@x.com" ∧ exFolderT1 ∈ g.2 ∧ exFolderT2 ∈ g.2 :=
  (resolved_identifier_trim_spec exWorldTrim exWorldTrim.clientFolders exFolderT1 exFolderT2
    " a@x.com" "a@x.com  " (by decide) (by decide) (by decide) (by decide)
    (by decide) (by decide)).2.2

/-! ## Evolution lemmas -/

theorem fileEvol_refl (f : FileRef) : FileEvol f f := ⟨rfl, Or.inl rfl⟩

theorem fileEvol_trans {f g h : FileRef} (h1 : FileEvol f g) (h2 : FileEvol g h) :
    FileEvol f h := by
  refine ⟨h2.1.trans h1.1, ?_⟩
  rcases h2.2 with hn | hn
  · rcases h1.2 with hm | hm
    · exact Or.inl (hn.trans hm)
    · exact Or.inr (hn ▸ hm)
  · exact Or.inr hn

theorem forall₂_fileEvol_trans {l m n : List FileRef} (h1 : List.Forall₂ FileEvol l m)
    (h2 : List.Forall₂ FileEvol m n) : List.Forall₂ FileEvol l n := by
  induction h1 generalizing n with
  | nil =>
    cases h2
    exact .nil
  | cons ha hl ih =>
    cases h2 with
    | cons hb hm => exact .cons (fileEvol_trans ha hb) (ih hm)

theorem forall₂_mem_right {R : FileRef → FileRef → Prop} {l m : List FileRef} {x : FileRef}
    (h : List.Forall₂ R l m) (hx : x ∈ m) : ∃ y ∈ l, R y x := by
  induction h with
  | nil => simp at hx
  | cons ha _ ih =>
    rcases List.mem_cons.1 hx with he | hm
    · exact ⟨_, List.mem_cons_self _ _, he ▸ ha⟩
    · obtain ⟨y, hy, hr⟩ := ih hm
      exact ⟨y, List.mem_cons_of_mem _ hy, hr⟩

theorem stEvol_refl (st : Nat → FTree) : StEvol st st :=
  fun _ => List.forall₂_same.2 (fun x _ => fileEvol_refl x)

theorem stEvol_trans {a b c : Nat → FTree} (h1 : StEvol a b) (h2 : StEvol b c) :
    StEvol a c :=
  fun i => forall₂_fileEvol_trans (h1 i) (h2 i)

theorem fileEvol_renameFile (fid : Nat) (nm : String)
    (hnm : strEndsWith nm "_UPLOADED.pdf" = true) (f : FileRef) :
    FileEvol f (renameFile fid nm f) := by
  rw [renameFile]
  split
  · exact ⟨rfl, Or.inr hnm⟩
  · exact fileEvol_refl f

theorem stEvol_rename (st : Nat → FTree) (fid : Nat) (nm : String)
    (hnm : strEndsWith nm "_UPLOADED.pdf" = true) :
    StEvol st (renameState st fid nm) := by
  intro i
  rw [show (renameState st fid nm) i = renameTree fid nm (st i) from rfl, allFiles_renameTree]
  have : ∀ l : List FileRef, List.Forall₂ FileEvol l (l.map (renameFile fid nm)) := by
    intro l
    induction l with
    | nil => exact .nil
    | cons f l ih => exact .cons (fileEvol_renameFile fid nm hnm f) ih
  exact this _

theorem stEvol_mem_back {a b : Nat → FTree} (h : StEvol a b) {i : Nat} {f : FileRef}
    (hf : f ∈ findNewPDFs (b i)) : f ∈ findNewPDFs (a i) := by
  rw [mem_findNewPDFs_iff] at hf ⊢
  obtain ⟨hmem, hnew⟩ := hf
  obtain ⟨g, hg, hevol⟩ := forall₂_mem_right (h i) hmem
  have hn : f.name = g.name := by
    rcases hevol.2 with h1 | h1
    · exact h1
    · rw [isNewPdfName, h1] at hnew
      simp at hnew
  have hfg : f = g := by
    cases f
    cases g
    simp only [FileRef.mk.injEq]
    exact ⟨by simpa using hevol.1, by simpa using hn⟩
  exact ⟨hfg ▸ hg, hnew⟩

theorem idSuffixed_of_stEvol {a b : Nat → FTree} (h : StEvol a b) {fid : Nat}
    (hs : idSuffixed a fid) : idSuffixed b fid := by
  intro i g hg hid
  obtain ⟨g0, hg0, hevol⟩ := forall₂_mem_right (h i) hg
  rcases hevol.2 with h1 | h1
  · rw [h1]
    exact hs i g0 hg0 (by rw [← hevol.1]; exact hid)
  · exact h1

theorem idSuffixed_rename (st : Nat → FTree) (fid : Nat) (nm : String)
    (hnm : strEndsWith nm "_UPLOADED.pdf" = true) :
    idSuffixed (renameState st fid nm) fid := by
  intro i g hg hid
  rw [show (renameState st fid nm) i = renameTree fid nm (st i) from rfl,
    allFiles_renameTree] at hg
  obtain ⟨g0, _, hfn⟩ := List.mem_map.1 hg
  rw [← hfn] at hid ⊢
  by_cases hg0id : g0.id = fid
  · simp [renameFile, hg0id, hnm]
  · rw [renameFile, if_neg hg0id] at hid
    exact absurd hid hg0id

theorem idSuffixed_not_enumerated {st : Nat → FTree} {fid : Nat} (hs : idSuffixed st fid)
    {i : Nat} {f : FileRef} (hf : f ∈ findNewPDFs (st i)) : f.id ≠ fid := by
  intro hid
  have h1 := (mem_findNewPDFs_iff f _).1 hf
  have h2 := hs i f h1.1 hid
  rw [isNewPdfName, h2] at h1
  simp at h1

theorem accEvol_refl (a : Acc) : AccEvol a a :=
  ⟨stEvol_refl _, List.prefix_rfl, List.prefix_rfl, List.prefix_rfl, List.prefix_rfl,
    List.prefix_rfl⟩

theorem accEvol_trans {a b c : Acc} (h1 : AccEvol a b) (h2 : AccEvol b c) : AccEvol a c :=
  ⟨stEvol_trans h1.1 h2.1, h1.2.1.trans h2.2.1, h1.2.2.1.trans h2.2.2.1,
    h1.2.2.2.1.trans h2.2.2.2.1, h1.2.2.2.2.1.trans h2.2.2.2.2.1,
    h1.2.2.2.2.2.trans h2.2.2.2.2.2⟩

theorem processPdf_evol (w : World) (fo : ClientFolder) (email : String) (t : Txn)
    (a : Acc) (pdf : FileRef) : AccEvol a (processPdf w fo email t a pdf) := by
  rw [processPdf]
  cases w.downloadResult pdf.id with
  | error e =>
    exact ⟨stEvol_refl _, List.prefix_rfl, List.prefix_append _ _, List.prefix_rfl,
      List.prefix_rfl, List.prefix_rfl⟩
  | ok u =>
    cases w.uploadResult t.client_id pdf.name with
    | error e =>
      exact ⟨stEvol_refl _, List.prefix_rfl, List.prefix_append _ _, List.prefix_rfl,
        List.prefix_rfl, List.prefix_append _ _⟩
    | ok u2 =>
      cases w.renameResult pdf.id with
      | error e =>
        exact ⟨stEvol_refl _, List.prefix_rfl, List.prefix_append _ _, List.prefix_rfl,
          List.prefix_rfl, List.prefix_append _ _⟩
      | ok u3 =>
        exact ⟨stEvol_rename _ _ _ (renameFileAsUploaded_endsWith pdf.name),
          List.prefix_append _ _, List.prefix_rfl, List.prefix_rfl, List.prefix_rfl,
          List.prefix_append _ _⟩

theorem foldl_accEvol {β : Type} (step : Acc → β → Acc)
    (hstep : ∀ a x, AccEvol a (step a x)) :
    ∀ (l : List β) (a : Acc), AccEvol a (l.foldl step a) := by
  intro l
  induction l with
  | nil => exact fun a => accEvol_refl a
  | cons x l ih => exact fun a => accEvol_trans (hstep a x) (ih (step a x))

theorem foldl_accEvol_decomp {β : Type} (step : Acc → β → Acc)
    (hstep : ∀ a x, AccEvol a (step a x)) :
    ∀ (l : List β) (x : β), x ∈ l → ∀ a : Acc,
      ∃ a₁, AccEvol a a₁ ∧ AccEvol (step a₁ x) (l.foldl step a) := by
  intro l
  induction l with
  | nil => intro x hx; simp at hx
  | cons y l ih =>
    intro x hx a
    rcases List.mem_cons.1 hx with he | hm
    · exact ⟨a, accEvol_refl a, by rw [← he, List.foldl_cons]; exact foldl_accEvol step hstep l _⟩
    · obtain ⟨a₁, h1, h2⟩ := ih x hm (step a y)
      exact ⟨a₁, accEvol_trans (hstep a y) h1, by rw [List.foldl_cons]; exact h2⟩

theorem processTxn_evol (w : World) (fo : ClientFolder) (email : String)
    (a : Acc) (t : Txn) : AccEvol a (processTxn w fo email a t) := by
  rw [processTxn]
  cases w.enumError fo.folderId with
  | some m =>
    exact ⟨stEvol_refl _, List.prefix_rfl, List.prefix_append _ _, List.prefix_rfl,
      List.prefix_rfl, List.prefix_rfl⟩
  | none => exact foldl_accEvol _ (fun a1 pdf => processPdf_evol w fo email t a1 pdf) _ a

theorem processFolder_evol (w : World) (email : String) (txns : List Txn)
    (a : Acc) (fo : ClientFolder) : AccEvol a (processFolder w email txns a fo) :=
  foldl_accEvol _ (fun a1 t => processTxn_evol w fo email a1 t) txns a

theorem processEmailGroup_evol (w : World) (a : Acc) (g : String × List ClientFolder) :
    AccEvol a (processEmailGroup w a g) := by
  cases h : w.lookup g.1 with
  | error e =>
    simp only [processEmailGroup, h]
    exact ⟨stEvol_refl _, List.prefix_rfl, List.prefix_append _ _, List.prefix_rfl,
      List.prefix_rfl, List.prefix_rfl⟩
  | ok lr =>
    simp only [processEmailGroup, h]
    by_cases hf : lr.found = false
    · rw [if_pos hf]
      exact ⟨stEvol_refl _, List.prefix_rfl, List.prefix_rfl, List.prefix_append _ _,
        List.prefix_rfl, List.prefix_rfl⟩
    · rw [if_neg hf]
      refine accEvol_trans (b := if 1 < lr.transactions.length then
        { a with multiTransactionFlags := a.multiTransactionFlags ++ [flagFor g.1 lr.transactions g.2] }
        else a) ?_ ?_
      · split
        · exact ⟨stEvol_refl _, List.prefix_rfl, List.prefix_rfl, List.prefix_rfl,
            List.prefix_append _ _, List.prefix_rfl⟩
        · exact accEvol_refl a
      · exact foldl_accEvol _ (fun a1 fo => processFolder_evol w g.1 lr.transactions a1 fo) _ _

/-! ## No-winner lemmas: after a run every surviving pair fails -/

theorem pdfFold_suffixes (w : World) (fo : ClientFolder) (email : String) (t : Txn) :
    ∀ (ps : List FileRef) (a : Acc) (pdf : FileRef), pdf ∈ ps →
      successPath w t.client_id pdf →
      idSuffixed ((ps.foldl (processPdf w fo email t) a).st) pdf.id := by
  intro ps
  induction ps with
  | nil => intro a pdf h; simp at h
  | cons p rest ih =>
    intro a pdf hmem hsp
    rw [List.foldl_cons]
    rcases List.mem_cons.1 hmem with he | hm
    · subst he
      have hstep : (processPdf w fo email t a pdf).st =
          renameState a.st pdf.id (renameFileAsUploaded pdf.name) := by
        obtain ⟨h1, h2, h3⟩ := hsp
        simp only [processPdf, h1, h2, h3]
      have hsuf : idSuffixed ((processPdf w fo email t a pdf).st) pdf.id := by
        rw [hstep]
        exact idSuffixed_rename _ _ _ (renameFileAsUploaded_endsWith pdf.name)
      have hev := foldl_accEvol _ (fun a1 q => processPdf_evol w fo email t a1 q) rest
        (processPdf w fo email t a pdf)
      exact idSuffixed_of_stEvol hev.1 hsuf
    · exact ih _ pdf hm hsp

theorem txnFold_noWinner (w : World) (fo : ClientFolder) (email : String) :
    ∀ (txns : List Txn) (a : Acc) (t : Txn), t ∈ txns →
      w.enumError fo.folderId = none →
      ∀ f ∈ findNewPDFs ((txns.foldl (processTxn w fo email) a).st fo.folderId),
        ¬ successPath w t.client_id f := by
  intro txns
  induction txns with
  | nil => intro a t ht; simp at ht
  | cons t0 rest ih =>
    intro a t ht henum f hf hsp
    rw [List.foldl_cons] at hf
    rcases List.mem_cons.1 ht with he | hm
    · subst he
      have hev1 := foldl_accEvol _ (fun a1 t1 => processTxn_evol w fo email a1 t1) rest
        (processTxn w fo email a t)
      have hf1 : f ∈ findNewPDFs ((processTxn w fo email a t).st fo.folderId) :=
        stEvol_mem_back hev1.1 hf
      have hred : processTxn w fo email a t =
          (findNewPDFs (a.st fo.folderId)).foldl (processPdf w fo email t) a := by
        simp only [processTxn, henum]
      have hf0 : f ∈ findNewPDFs (a.st fo.folderId) :=
        stEvol_mem_back (processTxn_evol w fo email a t).1 hf1
      have hsuf := pdfFold_suffixes w fo email t (findNewPDFs (a.st fo.folderId)) a f hf0 hsp
      rw [← hred] at hsuf
      exact idSuffixed_not_enumerated (idSuffixed_of_stEvol hev1.1 hsuf) hf rfl
    · exact ih (processTxn w fo email a t0) t hm henum f hf hsp

theorem folderFold_noWinner (w : World) (email : String) (txns : List Txn) :
    ∀ (folders : List ClientFolder) (a : Acc) (fo : ClientFolder), fo ∈ folders →
      w.enumError fo.folderId = none → ∀ t ∈ txns,
      ∀ f ∈ findNewPDFs ((folders.foldl (processFolder w email txns) a).st fo.folderId),
        ¬ successPath w t.client_id f := by
  intro folders
  induction folders with
  | nil => intro a fo h; simp at h
  | cons fo0 rest ih =>
    intro a fo hfo henum t ht f hf hsp
    rw [List.foldl_cons] at hf
    rcases List.mem_cons.1 hfo with he | hm
    · subst he
      have hev1 := foldl_accEvol _ (fun a1 x => processFolder_evol w email txns a1 x) rest
        (processFolder w email txns a fo)
      have hf1 := stEvol_mem_back hev1.1 hf
      exact txnFold_noWinner w fo email txns a t ht henum f hf1 hsp
    · exact ih _ fo hm henum t ht f hf hsp

theorem groupFold_noWinner (w : World) :
    ∀ (groups : List (String × List ClientFolder)) (a : Acc)
      (g : String × List ClientFolder) (lr : LookupResult),
      g ∈ groups → w.lookup g.1 = Except.ok lr → lr.found = true →
      ∀ fo ∈ g.2, w.enumError fo.folderId = none → ∀ t ∈ lr.transactions,
      ∀ f ∈ findNewPDFs ((groups.foldl (processEmailGroup w) a).st fo.folderId),
        ¬ successPath w t.client_id f := by
  intro groups
  induction groups with
  | nil => intro a g lr h; simp at h
  | cons g0 rest ih =>
    intro a g lr hg hlk hfound fo hfo henum t ht f hf hsp
    rw [List.foldl_cons] at hf
    rcases List.mem_cons.1 hg with he | hm
    · subst he
      have hev1 := foldl_accEvol _ (fun a1 x => processEmailGroup_evol w a1 x) rest
        (processEmailGroup w a g)
      have hf1 := stEvol_mem_back hev1.1 hf
      have hred : processEmailGroup w a g =
          g.2.foldl (processFolder w g.1 lr.transactions)
            (if 1 < lr.transactions.length then
              { a with multiTransactionFlags :=
                  a.multiTransactionFlags ++ [flagFor g.1 lr.transactions g.2] }
             else a) := by
        simp only [processEmailGroup, hlk]
        rw [if_neg (by simp [hfound])]
      rw [hred] at hf1
      exact folderFold_noWinner w g.1 lr.transactions g.2 _ fo hfo henum t ht f hf1 hsp
    · exact ih _ g lr hm hlk hfound fo hfo henum t ht f hf hsp

/-- After one batch run, no email group, resolved transaction and still-
eligible file can form a fully succeeding pair: whatever could succeed was
renamed during the run. -/
theorem runBatch_noWinner (w : World) : NoWin w ((runBatch w).st) := by
  intro g hg lr hlk hfound fo hfo henum t ht f hf hsp
  exact groupFold_noWinner w (batchGroups w) _ g lr hg hlk hfound fo hfo henum t ht f hf hsp

/-! ## Stuck lemmas: a run over a no-winner state makes no progress -/

theorem processPdf_stuck (w : World) (fo : ClientFolder) (email : String) (t : Txn)
    (a : Acc) (p : FileRef) (hp : ¬ successPath w t.client_id p) :
    (processPdf w fo email t a p).st = a.st ∧
    (processPdf w fo email t a p).successfulUploads = a.successfulUploads := by
  cases hd : w.downloadResult p.id with
  | error e => simp [processPdf, hd]
  | ok u =>
    cases hu : w.uploadResult t.client_id p.name with
    | error e => simp [processPdf, hd, hu]
    | ok u2 =>
      cases hr : w.renameResult p.id with
      | error e => simp [processPdf, hd, hu, hr]
      | ok u3 =>
        exfalso
        apply hp
        cases u
        cases u2
        cases u3
        exact ⟨hd, hu, hr⟩

theorem pdfFold_stuck (w : World) (fo : ClientFolder) (email : String) (t : Txn) :
    ∀ (ps : List FileRef) (a : Acc),
      (∀ p ∈ ps, ¬ successPath w t.client_id p) →
      (ps.foldl (processPdf w fo email t) a).st = a.st ∧
      (ps.foldl (processPdf w fo email t) a).successfulUploads = a.successfulUploads := by
  intro ps
  induction ps with
  | nil => exact fun a _ => ⟨rfl, rfl⟩
  | cons p rest ih =>
    intro a h
    rw [List.foldl_cons]
    have hstep := processPdf_stuck w fo email t a p (h p (List.mem_cons_self _ _))
    have hrest := ih (processPdf w fo email t a p)
      (fun q hq => h q (List.mem_cons_of_mem _ hq))
    exact ⟨hrest.1.trans hstep.1, hrest.2.trans hstep.2⟩

theorem txnFold_stuck (w : World) (fo : ClientFolder) (email : String) :
    ∀ (txns : List Txn) (a : Acc),
      (w.enumError fo.folderId = none →
        ∀ t ∈ txns, ∀ f ∈ findNewPDFs (a.st fo.folderId), ¬ successPath w t.client_id f) →
      (txns.foldl (processTxn w fo email) a).st = a.st ∧
      (txns.foldl (processTxn w fo email) a).successfulUploads = a.successfulUploads := by
  intro txns
  induction txns with
  | nil => exact fun a _ => ⟨rfl, rfl⟩
  | cons t0 rest ih =>
    intro a h
    rw [List.foldl_cons]
    cases he : w.enumError fo.folderId with
    | some m =>
      have hstep : (processTxn w fo email a t0).st = a.st ∧
          (processTxn w fo email a t0).successfulUploads = a.successfulUploads := by
        simp [processTxn, he]
      have hrest := ih (processTxn w fo email a t0)
        (fun hn => by rw [he] at hn; cases hn)
      exact ⟨hrest.1.trans hstep.1, hrest.2.trans hstep.2⟩
    | none =>
      have hstep : (processTxn w fo email a t0).st = a.st ∧
          (processTxn w fo email a t0).successfulUploads = a.successfulUploads := by
        have hred : processTxn w fo email a t0 =
            (findNewPDFs (a.st fo.folderId)).foldl (processPdf w fo email t0) a := by
          simp only [processTxn, he]
        rw [hred]
        exact pdfFold_stuck w fo email t0 _ a
          (fun p hp => h he t0 (List.mem_cons_self _ _) p hp)
      have hrest := ih (processTxn w fo email a t0)
        (fun hn t ht f hf => by
          rw [hstep.1] at hf
          exact h hn t (List.mem_cons_of_mem _ ht) f hf)
      exact ⟨hrest.1.trans hstep.1, hrest.2.trans hstep.2⟩

theorem folderFold_stuck (w : World) (email : String) (txns : List Txn) :
    ∀ (folders : List ClientFolder) (a : Acc),
      (∀ fo ∈ folders, w.enumError fo.folderId = none →
        ∀ t ∈ txns, ∀ f ∈ findNewPDFs (a.st fo.folderId), ¬ successPath w t.client_id f) →
      (folders.foldl (processFolder w email txns) a).st = a.st ∧
      (folders.foldl (processFolder w email txns) a).successfulUploads =
        a.successfulUploads := by
  intro folders
  induction folders with
  | nil => exact fun a _ => ⟨rfl, rfl⟩
  | cons fo0 rest ih =>
    intro a h
    rw [List.foldl_cons]
    have hstep : (processFolder w email txns a fo0).st = a.st ∧
        (processFolder w email txns a fo0).successfulUploads = a.successfulUploads :=
      txnFold_stuck w fo0 email txns a
        (fun hn t ht f hf => h fo0 (List.mem_cons_self _ _) hn t ht f hf)
    have hrest := ih (processFolder w email txns a fo0)
      (fun fo hfo hn t ht f hf => by
        rw [hstep.1] at hf
        exact h fo (List.mem_cons_of_mem _ hfo) hn t ht f hf)
    exact ⟨hrest.1.trans hstep.1, hrest.2.trans hstep.2⟩

theorem groupFold_stuck (w : World) :
    ∀ (groups : List (String × List ClientFolder)) (a : Acc),
      (∀ g ∈ groups, ∀ lr : LookupResult, w.lookup g.1 = Except.ok lr → lr.found = true →
        ∀ fo ∈ g.2, w.enumError fo.folderId = none →
        ∀ t ∈ lr.transactions, ∀ f ∈ findNewPDFs (a.st fo.folderId),
          ¬ successPath w t.client_id f) →
      (groups.foldl (processEmailGroup w) a).st = a.st ∧
      (groups.foldl (processEmailGroup w) a).successfulUploads = a.successfulUploads := by
  intro groups
  induction groups with
  | nil => exact fun a _ => ⟨rfl, rfl⟩
  | cons g0 rest ih =>
    intro a h
    rw [List.foldl_cons]
    have hstep : (processEmailGroup w a g0).st = a.st ∧
        (processEmailGroup w a g0).successfulUploads = a.successfulUploads := by
      cases hlk : w.lookup g0.1 with
      | error e =>
        simp [processEmailGroup, hlk]
      | ok lr =>
        by_cases hfound : lr.found = false
        · simp [processEmailGroup, hlk, if_pos hfound]
        · have hft : lr.found = true := by
            revert hfound
            cases lr.found <;> simp
          have hred : processEmailGroup w a g0 =
              g0.2.foldl (processFolder w g0.1 lr.transactions)
                (if 1 < lr.transactions.length then
                  { a with multiTransactionFlags :=
                      a.multiTransactionFlags ++ [flagFor g0.1 lr.transactions g0.2] }
                 else a) := by
            simp only [processEmailGroup, hlk]
            rw [if_neg (by simp [hft])]
          have hflag :
              (if 1 < lr.transactions.length then
                { a with multiTransactionFlags :=
                    a.multiTransactionFlags ++ [flagFor g0.1 lr.transactions g0.2] }
               else a).st = a.st ∧
              (if 1 < lr.transactions.length then
                { a with multiTransactionFlags :=
                    a.multiTransactionFlags ++ [flagFor g0.1 lr.transactions g0.2] }
               else a).successfulUploads = a.successfulUploads := by
            split <;> exact ⟨rfl, rfl⟩
          rw [hred]
          have hfold := folderFold_stuck w g0.1 lr.transactions g0.2 _
            (fun fo hfo hn t ht f hf => by
              rw [hflag.1] at hf
              exact h g0 (List.mem_cons_self _ _) lr hlk hft fo hfo hn t ht f hf)
          exact ⟨hfold.1.trans hflag.1, hfold.2.trans hflag.2⟩
    have hrest := ih (processEmailGroup w a g0)
      (fun g hg lr hlk hft fo hfo hn t ht f hf => by
        rw [hstep.1] at hf
        exact h g (List.mem_cons_of_mem _ hg) lr hlk hft fo hfo hn t ht f hf)
    exact ⟨hrest.1.trans hstep.1, hrest.2.trans hstep.2⟩

/-- A batch run over a state in which no pair can succeed records no
successes and leaves the Drive state unchanged. -/
theorem runBatch_stuck (w : World) (h : NoWin w w.tree) :
    (runBatch w).st = w.tree ∧ (runBatch w).successfulUploads = [] := by
  exact groupFold_stuck w (batchGroups w) _
    (fun g hg lr hlk hft fo hfo hn t ht f hf => h g hg lr hlk hft fo hfo hn t ht f hf)

/-! ## Success invariant: every recorded success was renamed -/

theorem processPdf_succInv (w : World) (fo : ClientFolder) (email : String) (t : Txn)
    (a : Acc) (pdf : FileRef) (h : SuccInv a) : SuccInv (processPdf w fo email t a pdf) := by
  cases hd : w.downloadResult pdf.id with
  | error e =>
    intro e' he'
    simp only [processPdf, hd] at he' ⊢
    exact h e' he'
  | ok u =>
    cases hu : w.uploadResult t.client_id pdf.name with
    | error e =>
      intro e' he'
      simp only [processPdf, hd, hu] at he' ⊢
      exact h e' he'
    | ok u2 =>
      cases hr : w.renameResult pdf.id with
      | error e =>
        intro e' he'
        simp only [processPdf, hd, hu, hr] at he' ⊢
        exact h e' he'
      | ok u3 =>
        intro e' he'
        simp only [processPdf, hd, hu, hr] at he' ⊢
        rcases List.mem_append.1 he' with hin | hnew
        · exact idSuffixed_of_stEvol
            (stEvol_rename _ _ _ (renameFileAsUploaded_endsWith pdf.name)) (h e' hin)
        · rw [List.mem_singleton] at hnew
          subst hnew
          exact idSuffixed_rename _ _ _ (renameFileAsUploaded_endsWith pdf.name)

theorem foldl_succInv {β : Type} (step : Acc → β → Acc)
    (hstep : ∀ a x, SuccInv a → SuccInv (step a x)) :
    ∀ (l : List β) (a : Acc), SuccInv a → SuccInv (l.foldl step a) := by
  intro l
  induction l with
  | nil => exact fun a h => h
  | cons x l ih => exact fun a h => ih (step a x) (hstep a x h)

theorem processTxn_succInv (w : World) (fo : ClientFolder) (email : String)
    (a : Acc) (t : Txn) (h : SuccInv a) : SuccInv (processTxn w fo email a t) := by
  cases he : w.enumError fo.folderId with
  | some m =>
    intro e' he'
    simp only [processTxn, he] at he' ⊢
    exact h e' he'
  | none =>
    have hred : processTxn w fo email a t =
        (findNewPDFs (a.st fo.folderId)).foldl (processPdf w fo email t) a := by
      simp only [processTxn, he]
    rw [hred]
    exact foldl_succInv _ (fun a1 pdf h1 => processPdf_succInv w fo email t a1 pdf h1) _ a h

theorem processFolder_succInv (w : World) (email : String) (txns : List Txn)
    (a : Acc) (fo : ClientFolder) (h : SuccInv a) :
    SuccInv (processFolder w email txns a fo) :=
  foldl_succInv _ (fun a1 t h1 => processTxn_succInv w fo email a1 t h1) txns a h

theorem processEmailGroup_succInv (w : World) (a : Acc) (g : String × List ClientFolder)
    (h : SuccInv a) : SuccInv (processEmailGroup w a g) := by
  cases hlk : w.lookup g.1 with
  | error e =>
    intro e' he'
    simp only [processEmailGroup, hlk] at he' ⊢
    exact h e' he'
  | ok lr =>
    by_cases hfound : lr.found = false
    · intro e' he'
      simp only [processEmailGroup, hlk, if_pos hfound] at he' ⊢
      exact h e' he'
    · have hred : processEmailGroup w a g =
          g.2.foldl (processFolder w g.1 lr.transactions)
            (if 1 < lr.transactions.length then
              { a with multiTransactionFlags :=
                  a.multiTransactionFlags ++ [flagFor g.1 lr.transactions g.2] }
             else a) := by
        simp only [processEmailGroup, hlk]
        rw [if_neg hfound]
      rw [hred]
      refine foldl_succInv _ (fun a1 fo h1 => processFolder_succInv w g.1 lr.transactions a1 fo h1) _ _ ?_
      split
      · exact fun e' he' => h e' he'
      · exact h

theorem runBatch_succInv (w : World) : SuccInv (runBatch w) := by
  exact foldl_succInv _ (fun a1 g h1 => processEmailGroup_succInv w a1 g h1)
    (batchGroups w) _ (fun e he => by simp at he)

/-! ## Claim C3 -/

/-- C3: running the batch twice with no external changes yields zero new
successes on the second run — every file recorded as successfully submitted
in the first run carries the transferred suffix in the end state, and the
enumeration step never returns a suffixed file, so nothing already
transferred is re-submitted. -/
theorem runBatch_idempotent (w : World) :
    (runBatch (afterRunOnce w)).successfulUploads = [] ∧
    (∀ e ∈ (runBatch w).successfulUploads, idSuffixed ((runBatch w).st) e.driveFileId) ∧
    (∀ t : FTree, ∀ f ∈ findNewPDFs t, strEndsWith f.name "_UPLOADED.pdf" = false) := by
  refine ⟨?_, fun e he => runBatch_succInv w e he,
    fun t f hf => findNewPDFs_excludes_suffix t f hf⟩
  have hnw : NoWin (afterRunOnce w) (afterRunOnce w).tree := by
    intro g hg lr hlk hfound fo hfo henum t ht f hf hsp
    exact runBatch_noWinner w g hg lr hlk hfound fo hfo henum t ht f hf hsp
  exact (runBatch_stuck (afterRunOnce w) hnw).2

/-- Witness for C3: on the concrete multi-transaction world the second run
records no successes, and a concretely enumerated file is unsuffixed. -/
theorem runBatch_idempotent_witness :
    (runBatch (afterRunOnce exWorldMulti)).successfulUploads = [] ∧
    strEndsWith "doc.pdf" "_UPLOADED.pdf" = false :=
  ⟨(runBatch_idempotent exWorldMulti).1,
    (runBatch_idempotent exWorldMulti).2.2 (FTree.node 1 [{ id := 5, name := "doc.pdf" }] [])
      { id := 5, name := "doc.pdf" } (by decide)⟩

/-! ## Claim C9 -/

theorem runBatch_eq_fold (w : World) :
    runBatch w = (batchGroups w).foldl (processEmailGroup w)
      { st := w.tree, successfulUploads := [], failures := []
        skipped := (buildGroups w (deduplicateFoldersByPriority w.clientFolders)).2
        multiTransactionFlags := [], calls := [] } := rfl

theorem pdfFold_failEntry (w : World) (fo : ClientFolder) (email : String) (t : Txn) :
    ∀ (ps : List FileRef) (a : Acc) (f : FileRef), f ∈ ps →
      w.downloadResult f.id = Except.ok () →
      ∀ m, w.uploadResult t.client_id f.name = Except.error m →
      pdfFailEntry fo email t f m ∈ (ps.foldl (processPdf w fo email t) a).failures := by
  intro ps
  induction ps with
  | nil => intro a f h; simp at h
  | cons p rest ih =>
    intro a f hmem hd m hu
    rw [List.foldl_cons]
    rcases List.mem_cons.1 hmem with he | hm
    · subst he
      have hpush : pdfFailEntry fo email t f m ∈ (processPdf w fo email t a f).failures := by
        simp only [processPdf, hd, hu]
        simp
      have hev := foldl_accEvol _ (fun a1 q => processPdf_evol w fo email t a1 q) rest
        (processPdf w fo email t a f)
      exact List.IsPrefix.mem hpush hev.2.2.1
    · exact ih _ f hm hd m hu

/-- C9: the handler hard-fails only when authentication with or discovery
against the store fails; otherwise it returns a 200 with the structured
summary over the run's arrays, and the per-identifier, per-folder and
per-file failures are each converted into a failures entry at their own
boundary instead of aborting the run. -/
theorem handler_isolates_item_failures (w : World) :
    (∀ e, w.authOk = Except.error e → handler w = HandlerOutcome.fatal 500 e) ∧
    (w.authOk = Except.ok () → w.discoveryOk = Except.ok () →
      handler w = HandlerOutcome.ok 200 (mkSummary (runBatch w)) (runBatch w)) ∧
    (∀ g ∈ batchGroups w, ∀ m, w.lookup g.1 = Except.error m → ∀ fo ∈ g.2,
      emailFailEntry g.1 fo m ∈ (runBatch w).failures) ∧
    (∀ g ∈ batchGroups w, ∀ lr : LookupResult, w.lookup g.1 = Except.ok lr →
      lr.found = true → ∀ fo ∈ g.2, ∀ m, w.enumError fo.folderId = some m →
      ∀ t, t ∈ lr.transactions →
      folderFailEntry g.1 fo m ∈ (runBatch w).failures) ∧
    (∀ g ∈ batchGroups w, ∀ lr : LookupResult, w.lookup g.1 = Except.ok lr →
      lr.found = true → ∀ fo ∈ g.2, w.enumError fo.folderId = none →
      ∀ t, t ∈ lr.transactions → ∀ f ∈ findNewPDFs ((runBatch w).st fo.folderId),
      w.downloadResult f.id = Except.ok () →
      ∀ m, w.uploadResult t.client_id f.name = Except.error m →
      pdfFailEntry fo g.1 t f m ∈ (runBatch w).failures) := by
  refine ⟨?_, ?_, ?_, ?_, ?_⟩
  · intro e he
    simp [handler, he]
  · intro h1 h2
    simp [handler, h1, h2]
  · intro g hg m hlk fo hfo
    rw [runBatch_eq_fold]
    obtain ⟨a₁, _, h1⟩ := foldl_accEvol_decomp (processEmailGroup w)
      (fun a x => processEmailGroup_evol w a x) (batchGroups w) g hg _
    have hpush : emailFailEntry g.1 fo m ∈ (processEmailGroup w a₁ g).failures := by
      simp only [processEmailGroup, hlk]
      exact List.mem_append_right _ (List.mem_map_of_mem _ hfo)
    exact List.IsPrefix.mem hpush h1.2.2.1
  · intro g hg lr hlk hfound fo hfo m henum t ht
    rw [runBatch_eq_fold]
    obtain ⟨a₁, _, h1⟩ := foldl_accEvol_decomp (processEmailGroup w)
      (fun a x => processEmailGroup_evol w a x) (batchGroups w) g hg _
    have hred : processEmailGroup w a₁ g =
        g.2.foldl (processFolder w g.1 lr.transactions)
          (if 1 < lr.transactions.length then
            { a₁ with multiTransactionFlags :=
                a₁.multiTransactionFlags ++ [flagFor g.1 lr.transactions g.2] }
           else a₁) := by
      simp only [processEmailGroup, hlk]
      rw [if_neg (by simp [hfound])]
    obtain ⟨a₂, _, h2⟩ := foldl_accEvol_decomp (processFolder w g.1 lr.transactions)
      (fun a x => processFolder_evol w g.1 lr.transactions a x) g.2 fo hfo
      (if 1 < lr.transactions.length then
        { a₁ with multiTransactionFlags :=
            a₁.multiTransactionFlags ++ [flagFor g.1 lr.transactions g.2] }
       else a₁)
    obtain ⟨a₃, _, h3⟩ := foldl_accEvol_decomp (processTxn w fo g.1)
      (fun a x => processTxn_evol w fo g.1 a x) lr.transactions t ht a₂
    have hpush : folderFailEntry g.1 fo m ∈ (processTxn w fo g.1 a₃ t).failures := by
      simp only [processTxn, henum]
      simp
    have hm1 : folderFailEntry g.1 fo m ∈
        (processFolder w g.1 lr.transactions a₂ fo).failures :=
      List.IsPrefix.mem hpush h3.2.2.1
    have hm2 : folderFailEntry g.1 fo m ∈ (processEmailGroup w a₁ g).failures := by
      rw [hred]
      exact List.IsPrefix.mem hm1 h2.2.2.1
    exact List.IsPrefix.mem hm2 h1.2.2.1
  · intro g hg lr hlk hfound fo hfo henum t ht f hf hd m hu
    rw [runBatch_eq_fold]
    rw [runBatch_eq_fold] at hf
    obtain ⟨a₁, _, h1⟩ := foldl_accEvol_decomp (processEmailGroup w)
      (fun a x => processEmailGroup_evol w a x) (batchGroups w) g hg _
    have hred : processEmailGroup w a₁ g =
        g.2.foldl (processFolder w g.1 lr.transactions)
          (if 1 < lr.transactions.length then
            { a₁ with multiTransactionFlags :=
                a₁.multiTransactionFlags ++ [flagFor g.1 lr.transactions g.2] }
           else a₁) := by
      simp only [processEmailGroup, hlk]
      rw [if_neg (by simp [hfound])]
    obtain ⟨a₂, _, h2⟩ := foldl_accEvol_decomp (processFolder w g.1 lr.transactions)
      (fun a x => processFolder_evol w g.1 lr.transactions a x) g.2 fo hfo
      (if 1 < lr.transactions.length then
        { a₁ with multiTransactionFlags :=
            a₁.multiTransactionFlags ++ [flagFor g.1 lr.transactions g.2] }
       else a₁)
    obtain ⟨a₃, _, h3⟩ := foldl_accEvol_decomp (processTxn w fo g.1)
      (fun a x => processTxn_evol w fo g.1 a x) lr.transactions t ht a₂
    have e1 : AccEvol a₃ (processFolder w g.1 lr.transactions a₂ fo) :=
      accEvol_trans (processTxn_evol w fo g.1 a₃ t) h3
    have e2 : AccEvol a₃ (processEmailGroup w a₁ g) := by
      rw [hred]
      exact accEvol_trans e1 h2
    have e3 : AccEvol a₃
        ((batchGroups w).foldl (processEmailGroup w)
          { st := w.tree, successfulUploads := [], failures := []
            skipped := (buildGroups w (deduplicateFoldersByPriority w.clientFolders)).2
            multiTransactionFlags := [], calls := [] }) :=
      accEvol_trans e2 h1
    have hf3 : f ∈ findNewPDFs (a₃.st fo.folderId) := stEvol_mem_back e3.1 hf
    have hred3 : processTxn w fo g.1 a₃ t =
        (findNewPDFs (a₃.st fo.folderId)).foldl (processPdf w fo g.1 t) a₃ := by
      simp only [processTxn, henum]
    have hpush : pdfFailEntry fo g.1 t f m ∈ (processTxn w fo g.1 a₃ t).failures := by
      rw [hred3]
      exact pdfFold_failEntry w fo g.1 t _ a₃ f hf3 hd m hu
    have hm1 : pdfFailEntry fo g.1 t f m ∈
        (processFolder w g.1 lr.transactions a₂ fo).failures :=
      List.IsPrefix.mem hpush h3.2.2.1
    have hm2 : pdfFailEntry fo g.1 t f m ∈ (processEmailGroup w a₁ g).failures := by
      rw [hred]
      exact List.IsPrefix.mem hm1 h2.2.2.1
    exact List.IsPrefix.mem hm2 h1.2.2.1

/-- Witness for C9: with a terminally failing submission the handler still
returns a 200 whose run has one failure entry and no successes. -/
theorem handler_isolates_item_failures_witness :
    handler exWorldFail =
      HandlerOutcome.ok 200 (mkSummary (runBatch exWorldFail)) (runBatch exWorldFail) ∧
    (runBatch exWorldFail).failures.length = 1 ∧
    (runBatch exWorldFail).successfulUploads = [] :=
  ⟨(handler_isolates_item_failures exWorldFail).2.1 rfl rfl, by decide, by decide⟩

end DriveToSisu
